import Mathlib

/-!
Verification development for the desired-state reconciliation engine of an
infrastructure-as-code toolkit.  The Python sources embedded here are
`scripts/plan_unifi.py` (normalization, field comparison, three-way diff) and
`scripts/apply_via_unifi.py` (DHCP-range/gateway derivation, desired-state
building, batch apply with partial-failure tolerance), plus the network test
helper `tests/integration/helpers/unifi_client.py`.

Python dictionaries holding network configurations are embedded as records of
optional JSON values: `none` means the key is absent, `some v` means the key is
present with value `v` (which may be JSON null).  Python truthiness, `or`
fallback, `==`/`!=` (with bool/int numeric cross-equality) and insertion-ordered
dict semantics are modelled explicitly.  Fallible Python code (functions that
can raise) is embedded with `Except String`.
-/

namespace UnifiIaC

/-- A JSON-ish Python value as it appears in network configuration dicts. -/
inductive JVal where
  | null
  | bool (b : Bool)
  | int (n : Int)
  | str (s : String)
deriving DecidableEq, Repr

/-- Python truthiness of a value: `None`, `False`, `0` and `""` are falsy. -/
def JVal.truthy : JVal → Bool
  | .null => false
  | .bool b => b
  | .int n => n != 0
  | .str s => s != ""

/-- Numeric view: Python `bool` is a subclass of `int`, so `True == 1`. -/
def JVal.toNum? : JVal → Option Int
  | .bool b => some (if b then 1 else 0)
  | .int n => some n
  | _ => none

/-- Python `==` on these values (numeric cross-type equality for bool/int). -/
def pyEq (a b : JVal) : Bool :=
  match a.toNum?, b.toNum? with
  | some m, some n => m == n
  | _, _ => a == b

/-- Python `x or y`: the first operand if truthy, otherwise the second. -/
def pyOr (a b : JVal) : JVal :=
  if a.truthy then a else b

/-- A network configuration dict.  Each field models one dict key that the
scripts read or write; `none` = key absent.  `net_id` models the `"_id"` key. -/
structure Network where
  name : Option JVal := none
  vlan : Option JVal := none
  vlan_id : Option JVal := none
  ip_subnet : Option JVal := none
  subnet : Option JVal := none
  dhcpd_enabled : Option JVal := none
  dhcpd_start : Option JVal := none
  dhcpd_stop : Option JVal := none
  net_id : Option JVal := none
  purpose : Option JVal := none
  networkgroup : Option JVal := none
  vlan_enabled : Option JVal := none
deriving DecidableEq, Repr

/-- Python truthiness of the dict itself: an empty dict (no keys) is falsy. -/
def Network.falsy (n : Network) : Bool :=
  n == {}

/-- Python `{**existing, **config}`: keys of `config` win when present. -/
def Network.merge (existing config : Network) : Network where
  name := config.name <|> existing.name
  vlan := config.vlan <|> existing.vlan
  vlan_id := config.vlan_id <|> existing.vlan_id
  ip_subnet := config.ip_subnet <|> existing.ip_subnet
  subnet := config.subnet <|> existing.subnet
  dhcpd_enabled := config.dhcpd_enabled <|> existing.dhcpd_enabled
  dhcpd_start := config.dhcpd_start <|> existing.dhcpd_start
  dhcpd_stop := config.dhcpd_stop <|> existing.dhcpd_stop
  net_id := config.net_id <|> existing.net_id
  purpose := config.purpose <|> existing.purpose
  networkgroup := config.networkgroup <|> existing.networkgroup
  vlan_enabled := config.vlan_enabled <|> existing.vlan_enabled

/-- `net.get("name")` — `None` when the key is absent. -/
def Network.nameKey (n : Network) : JVal :=
  n.name.getD .null

/-- Result of `normalize_network_for_comparison`: the six managed fields. -/
structure NormalizedNetwork where
  name : JVal
  vlan : JVal
  ip_subnet : JVal
  dhcpd_enabled : JVal
  dhcpd_start : JVal
  dhcpd_stop : JVal
deriving DecidableEq, Repr

/-- `plan_unifi.normalize_network_for_comparison`: extract only the managed
fields, with Python `or` fallbacks `vlan or vlan_id` and
`ip_subnet or subnet`, and `.get("dhcpd_enabled", True)`. -/
def normalize_network_for_comparison (network : Network) : NormalizedNetwork where
  name := network.name.getD .null
  vlan := pyOr (network.vlan.getD .null) (network.vlan_id.getD .null)
  ip_subnet := pyOr (network.ip_subnet.getD .null) (network.subnet.getD .null)
  dhcpd_enabled := network.dhcpd_enabled.getD (.bool true)
  dhcpd_start := network.dhcpd_start.getD .null
  dhcpd_stop := network.dhcpd_stop.getD .null

/-- `plan_unifi.networks_differ`: `True` iff some managed field (other than
`name`) differs between the two normalized networks (Python `!=`). -/
def networks_differ (net1 net2 : NormalizedNetwork) : Bool :=
  !pyEq net1.vlan net2.vlan ||
  !pyEq net1.ip_subnet net2.ip_subnet ||
  !pyEq net1.dhcpd_enabled net2.dhcpd_enabled ||
  !pyEq net1.dhcpd_start net2.dhcpd_start ||
  !pyEq net1.dhcpd_stop net2.dhcpd_stop

/-! ### Python dict semantics (insertion-ordered association list) -/

/-- An insertion-ordered Python dict with `JVal` keys. -/
abbrev PyDict (α : Type) : Type := List (JVal × α)

/-- `d[k] = v`: replace the value in place if a `pyEq`-equal key exists,
else append the new binding at the end. -/
def dictSet {α : Type} : PyDict α → JVal → α → PyDict α
  | [], k, v => [(k, v)]
  | (k', v') :: rest, k, v =>
    if pyEq k' k then (k', v) :: rest else (k', v') :: dictSet rest k v

/-- `d.get(k)`. -/
def dictGet? {α : Type} : PyDict α → JVal → Option α
  | [], _ => none
  | (k', v') :: rest, k => if pyEq k' k then some v' else dictGet? rest k

/-- `k in d`. -/
def dictMem {α : Type} (d : PyDict α) (k : JVal) : Bool :=
  (dictGet? d k).isSome

/-- `{keyOf x: x for x in l}` — dict comprehension over a list. -/
def dictOfList {α : Type} (l : List (JVal × α)) : PyDict α :=
  l.foldl (fun d kv => dictSet d kv.1 kv.2) []

/-! ### `plan_unifi.compute_diff` -/

/-- An entry of the `to_update` list: `{"name": ..., "current": ..., "desired": ...}`. -/
structure UpdateEntry where
  name : JVal
  current : NormalizedNetwork
  desired : NormalizedNetwork
deriving DecidableEq, Repr

/-- An entry of the `drift` list: `{"name": ..., "recorded": ..., "actual": ...}`. -/
structure DriftEntry where
  name : JVal
  recorded : NormalizedNetwork
  actual : NormalizedNetwork
deriving DecidableEq, Repr

/-- The dictionary returned by `compute_diff`. -/
structure DiffResult where
  to_create : List Network
  to_update : List UpdateEntry
  to_delete : List Network
  drift : List DriftEntry
  is_clean : Bool
deriving DecidableEq, Repr

/-- `net["name"]` on a desired network: raises `KeyError` when absent. -/
def requireName (net : Network) : Except String JVal :=
  match net.name with
  | some v => .ok v
  | none => .error "KeyError: name"

/-- Accumulating pass of `{net["name"]: net for net in desired}`. -/
def buildDesiredDictAux (acc : PyDict Network) : List Network → Except String (PyDict Network)
  | [] => .ok acc
  | net :: rest => do
    let k ← requireName net
    buildDesiredDictAux (dictSet acc k net) rest

/-- `{net["name"]: net for net in desired}` (raises on a nameless network). -/
def buildDesiredDict (desired : List Network) : Except String (PyDict Network) :=
  buildDesiredDictAux [] desired

/-- `{net.get("name"): net for net in l}` — total, absent names key as `None`. -/
def buildDictByName (l : List Network) : PyDict Network :=
  dictOfList (l.map fun net => (net.nameKey, net))

/-- `name.startswith("test-")`: raises `AttributeError` on a non-string. -/
def keyStartsWithTest (k : JVal) : Except String Bool :=
  match k with
  | .str s => .ok (List.isPrefixOf "test-".data s.data)
  | _ => .error "AttributeError: startswith"

/-! ### IPv4 parsing and DHCP-range derivation (`apply_via_unifi`) -/

/-- Split a character list on a separator, like Python `str.split(sep)`.
(Structurally recursive stand-in for `String.splitOn`, so that concrete
inputs evaluate inside the kernel.) -/
def splitChar (sep : Char) : List Char → List (List Char)
  | [] => [[]]
  | c :: cs =>
    match splitChar sep cs with
    | [] => [[]]
    | g :: gs => if c = sep then [] :: g :: gs else (c :: g) :: gs

/-- Decimal value of a nonempty all-digit character list. -/
def charsToNat? (cs : List Char) : Option Nat :=
  if cs ≠ [] ∧ cs.all Char.isDigit then
    some (cs.foldl (fun a c => a * 10 + (c.toNat - 48)) 0)
  else none

/-- Parse one dotted-quad octet: digits only, value ≤ 255, no leading zero. -/
def parseOctet (cs : List Char) : Option Nat := do
  let n ← charsToNat? cs
  if cs.length > 1 && cs.headD ' ' == '0' then none
  else if n ≤ 255 then some n else none

/-- Parse a dotted-quad IPv4 address into its 32-bit numeric value. -/
def parseIPv4Addr (cs : List Char) : Option Nat :=
  match splitChar '.' cs with
  | [a, b, c, d] => do
    let a ← parseOctet a
    let b ← parseOctet b
    let c ← parseOctet c
    let d ← parseOctet d
    some (((a * 256 + b) * 256 + c) * 256 + d)
  | _ => none

/-- Parse a prefix length: digits only, ≤ 32, no leading zero. -/
def parsePrefixLen (cs : List Char) : Option Nat := do
  let n ← charsToNat? cs
  if cs.length > 1 && cs.headD ' ' == '0' then none
  else if n ≤ 32 then some n else none

/-- `ipaddress.IPv4Network(cidr, strict=False)`: returns the masked network
address and the prefix length; host bits are cleared, not rejected.  An
address with no `/` gets prefix length 32. -/
def parseIPv4Network (cidr : String) : Option (Nat × Nat) :=
  match splitChar '/' cidr.data with
  | [addr] => (parseIPv4Addr addr).map fun a => (a, 32)
  | [addr, p] => do
    let a ← parseIPv4Addr addr
    let plen ← parsePrefixLen p
    some (a / 2 ^ (32 - plen) * 2 ^ (32 - plen), plen)
  | _ => none

/-- `str(IPv4Address(n))`: dotted-quad rendering of a 32-bit value. -/
def ipToString (n : Nat) : String :=
  toString (n / 16777216 % 256) ++ "." ++ toString (n / 65536 % 256) ++ "." ++
    toString (n / 256 % 256) ++ "." ++ toString (n % 256)

/-- The f-string of the subnet-too-small `ValueError` in
`calculate_dhcp_range`. -/
def sizingMsg (cidr : String) (usable_ips need : Int) : String :=
  "Subnet " ++ cidr ++ " too small for DHCP range (only " ++ toString usable_ips ++
    " usable IPs, need at least " ++ toString need ++ ")"

/-- `apply_via_unifi.calculate_dhcp_range`: DHCP start/stop from a CIDR.
`usable_ips = num_addresses - 2`; subnets with fewer than `start_offset + 2`
usable addresses raise the sizing `ValueError`; the stop address is the
minimum of `end_offset` and the last usable offset.  Address arithmetic that
would leave the 32-bit range raises (Python `AddressValueError`). -/
def calculate_dhcp_range (cidr : String) (start_offset : Int := 6)
    (end_offset : Int := 254) : Except String (String × String) :=
  match parseIPv4Network cidr with
  | none => .error ("Invalid CIDR format '" ++ cidr ++ "'")
  | some (net, plen) =>
    let usable_ips : Int := (2 : Int) ^ (32 - plen) - 2
    if usable_ips < start_offset + 2 then
      .error (sizingMsg cidr usable_ips (start_offset + 2))
    else
      let start_ip : Int := (net : Int) + start_offset
      let max_offset : Int := min end_offset usable_ips
      let end_ip : Int := (net : Int) + max_offset
      if start_ip < 0 || start_ip ≥ 2 ^ 32 || end_ip < 0 || end_ip ≥ 2 ^ 32 then
        .error "AddressValueError"
      else
        .ok (ipToString start_ip.toNat, ipToString end_ip.toNat)

/-- `apply_via_unifi.cidr_to_gateway`: the gateway is the network address
plus one, rendered with the prefix length appended. -/
def cidr_to_gateway (cidr : String) : Except String String :=
  match parseIPv4Network cidr with
  | none => .error ("Invalid CIDR format '" ++ cidr ++ "'")
  | some (net, plen) =>
    if net + 1 ≥ 2 ^ 32 then .error "AddressValueError"
    else .ok (ipToString (net + 1) ++ "/" ++ toString plen)

/-! ### `apply_via_unifi.build_desired_state` -/

/-- A VLAN record from the tfvars document: `{vlan_id, name, ...}`. -/
structure VlanRec where
  vlan_id : Int
  name : String
deriving DecidableEq, Repr

/-- A prefix record from the tfvars document: `{cidr, vlan_id, ...}`. -/
structure PrefixRec where
  cidr : String
  vlan_id : Int
deriving DecidableEq, Repr

/-- The tfvars fields consumed by `build_desired_state`. -/
structure Tfvars where
  vlans : List VlanRec := []
  prefixes : List PrefixRec := []
deriving DecidableEq, Repr

/-- `{p["vlan_id"]: p for p in tfvars.get("prefixes", [])}` — an int-keyed
Python dict; a later record with the same `vlan_id` overrides an earlier. -/
def prefixMapSet (d : List (Int × PrefixRec)) (k : Int) (v : PrefixRec) :
    List (Int × PrefixRec) :=
  match d with
  | [] => [(k, v)]
  | (k', v') :: rest =>
    if k' == k then (k', v) :: rest else (k', v') :: prefixMapSet rest k v

/-- Lookup in the prefix map. -/
def prefixMapGet? (d : List (Int × PrefixRec)) (k : Int) : Option PrefixRec :=
  match d with
  | [] => none
  | (k', v') :: rest => if k' == k then some v' else prefixMapGet? rest k

/-- Build the `vlan_id`-keyed prefix map. -/
def buildPrefixMap (ps : List PrefixRec) : List (Int × PrefixRec) :=
  ps.foldl (fun d p => prefixMapSet d p.vlan_id p) []

/-- `apply_via_unifi.build_network_config`: derive the network dict for one
(VLAN, prefix) pair.  A DHCP-range or gateway derivation error propagates. -/
def build_network_config (vlan : VlanRec) (pfx : PrefixRec) :
    Except String Network := do
  let (dhcp_start, dhcp_stop) ← calculate_dhcp_range pfx.cidr
  let gw ← cidr_to_gateway pfx.cidr
  pure { name := some (.str vlan.name)
         purpose := some (.str "corporate")
         networkgroup := some (.str "LAN")
         vlan_enabled := some (.bool true)
         vlan := some (.int vlan.vlan_id)
         ip_subnet := some (.str gw)
         dhcpd_enabled := some (.bool true)
         dhcpd_start := some (.str dhcp_start)
         dhcpd_stop := some (.str dhcp_stop) }

/-- The VLAN loop of `build_desired_state`: emit one network per VLAN with a
matching prefix; a VLAN whose id is not in the prefix map is skipped with a
warning. -/
def buildDesiredGo (prefix_map : List (Int × PrefixRec)) :
    List VlanRec → Except String (List Network)
  | [] => pure []
  | vlan :: rest =>
    match prefixMapGet? prefix_map vlan.vlan_id with
    | none => buildDesiredGo prefix_map rest
    | some pfx => do
      let cfg ← build_network_config vlan pfx
      let others ← buildDesiredGo prefix_map rest
      pure (cfg :: others)

/-- `apply_via_unifi.build_desired_state`: index prefixes by `vlan_id`, then
walk the VLANs.  Membership in a Python dict is key membership, so VLAN id 0
is a present key like any other and is not skipped. -/
def build_desired_state (tfvars : Tfvars) : Except String (List Network) :=
  buildDesiredGo (buildPrefixMap tfvars.prefixes) tfvars.vlans

/-! ### `apply_via_unifi.apply_networks` -/

/-- The controller client as seen by `apply_networks`: the cached
`get_networks` listing plus the two mutating calls it issues, each of which
may raise (`.error`).  `update` receives the network id and the merged
config; `create` is `create_or_update_network` on the given config. -/
structure Client where
  networks : List Network
  update : JVal → Network → Except String Network
  create : Network → Except String Network

/-- A `failures` entry: `{"network", "vlan_id", "error", "config"}`. -/
structure Failure where
  network : JVal
  vlan_id : JVal
  error : String
  config : Network
deriving DecidableEq, Repr

/-- The dictionary returned by `apply_networks`. -/
structure ApplyResult where
  created : List Network
  updated : List Network
  unchanged : List Network
  failures : List Failure
  current_state : List Network
deriving DecidableEq, Repr

/-- `{net["name"]: net for net in all_networks}` (raises on missing name). -/
def buildCacheAux (acc : PyDict Network) : List Network → Except String (PyDict Network)
  | [] => .ok acc
  | net :: rest => do
    let k ← requireName net
    buildCacheAux (dictSet acc k net) rest

/-- The `network_cache` built up front by `apply_networks`. -/
def buildCache (all_networks : List Network) : Except String (PyDict Network) :=
  buildCacheAux [] all_networks

/-- The body of the `try` block for one desired network: look the name up in
the cache; a truthy hit takes the update path (reading `existing["_id"]`,
which raises `KeyError` when absent, caught by the handler), anything else
the create path.  The `Bool` records which path produced the result. -/
def applyAttempt (client : Client) (cache : PyDict Network) (name : JVal)
    (network_config : Network) : Except String (Bool × Network) :=
  match dictGet? cache name with
  | some existing =>
    if existing.falsy then
      -- Python `if existing:` — an empty dict is falsy, so this creates
      (client.create network_config).map ((false, ·))
    else
      match existing.net_id with
      | none => .error "KeyError: _id"
      | some network_id =>
        (client.update network_id (Network.merge existing network_config)).map
          ((true, ·))
  | none => (client.create network_config).map ((false, ·))

/-- The main loop of `apply_networks` over the desired networks, carrying
`created`, `updated`, `failures` and the cache.  `network_config["name"]` is
read outside the `try` block, so a nameless config aborts the whole batch;
a caught per-network exception appends a failure entry and, under
`fail_fast`, re-raises. -/
def applyLoop (client : Client) (fail_fast : Bool) :
    List Network → List Network → List Network → List Failure → PyDict Network →
    Except String (List Network × List Network × List Failure)
  | [], created, updated, failures, _ => .ok (created, updated, failures)
  | network_config :: rest, created, updated, failures, cache => do
    let name ← requireName network_config
    match applyAttempt client cache name network_config with
    | .ok (true, result) =>
      applyLoop client fail_fast rest created (updated ++ [result]) failures
        (dictSet cache name result)
    | .ok (false, result) =>
      applyLoop client fail_fast rest (created ++ [result]) updated failures
        (dictSet cache name result)
    | .error e =>
      let f : Failure :=
        ⟨name, network_config.vlan.getD .null, e, network_config⟩
      if fail_fast then .error e
      else applyLoop client fail_fast rest created updated (failures ++ [f]) cache

/-- `apply_via_unifi.apply_networks`: fetch-and-cache, then walk the desired
networks in order; `unchanged` is never appended to, and
`current_state = created + updated + unchanged`. -/
def apply_networks (client : Client) (desired_networks : List Network)
    (fail_fast : Bool := false) : Except String ApplyResult := do
  let cache ← buildCache client.networks
  let (created, updated, failures) ←
    applyLoop client fail_fast desired_networks [] [] [] cache
  let unchanged : List Network := []
  pure { created := created, updated := updated, unchanged := unchanged,
         failures := failures,
         current_state := created ++ updated ++ unchanged }

/-- One iteration of the first loop of `compute_diff` (over
`desired_by_name.items()`): classify the desired network `kv.2` keyed by
`kv.1` into `to_create`, possibly `to_update`, and possibly `drift`. -/
def diffStep (recorded_by_name actual_by_name : PyDict Network)
    (acc : List Network × List UpdateEntry × List DriftEntry)
    (kv : JVal × Network) :
    List Network × List UpdateEntry × List DriftEntry :=
  let (to_create, to_update, drift) := acc
  let (name, desired_net) := kv
  match dictGet? actual_by_name name with
  | none => (to_create ++ [desired_net], to_update, drift)
  | some actual_net =>
    if actual_net.falsy then
      -- Python `if not actual_net:` — an empty dict is falsy
      (to_create ++ [desired_net], to_update, drift)
    else
      let desired_norm := normalize_network_for_comparison desired_net
      let actual_norm := normalize_network_for_comparison actual_net
      let to_update' :=
        if networks_differ desired_norm actual_norm then
          to_update ++ [⟨name, actual_norm, desired_norm⟩]
        else to_update
      let drift' :=
        match dictGet? recorded_by_name name with
        | some recorded_net =>
          if recorded_net.falsy then drift
          else
            let recorded_norm := normalize_network_for_comparison recorded_net
            if networks_differ actual_norm recorded_norm then
              drift ++ [⟨name, recorded_norm, actual_norm⟩]
            else drift
        | none => drift
      (to_create, to_update', drift')

/-- One iteration of the deletion loop of `compute_diff` (over
`actual_by_name.items()`): extra networks are delete candidates only when
their name starts with `"test-"`. -/
def deleteStep (desired_by_name : PyDict Network) (acc : List Network)
    (kv : JVal × Network) : Except String (List Network) :=
  if dictMem desired_by_name kv.1 then pure acc
  else do
    let sw ← keyStartsWithTest kv.1
    if sw then pure (acc ++ [kv.2]) else pure acc

/-- `plan_unifi.compute_diff`: three-way diff between desired, recorded and
actual network lists.  `is_clean` is `not (to_create or to_update or
to_delete)` — exactly as in the source, the `drift` list does not enter it. -/
def compute_diff (desired recorded actual : List Network) :
    Except String DiffResult := do
  let desired_by_name ← buildDesiredDict desired
  let recorded_by_name := buildDictByName recorded
  let actual_by_name := buildDictByName actual
  let (to_create, to_update, drift) :=
    desired_by_name.foldl (diffStep recorded_by_name actual_by_name) ([], [], [])
  let to_delete ← actual_by_name.foldlM (deleteStep desired_by_name) []
  let is_clean := to_create.isEmpty && to_update.isEmpty && to_delete.isEmpty
  pure { to_create, to_update, to_delete, drift, is_clean }

/-! ### Per-iteration classifiers of the `compute_diff` loops -/

/-- The slot keys of a dict, in order. -/
def dictKeys {α : Type} (d : PyDict α) : List JVal := d.map Prod.fst

/-- What one iteration of the first `compute_diff` loop appends to
`to_create`: the desired network itself when the name has no (truthy) actual
binding. -/
def createOf (actual_by_name : PyDict Network) (kv : JVal × Network) :
    Option Network :=
  match dictGet? actual_by_name kv.1 with
  | none => some kv.2
  | some actual_net => if actual_net.falsy then some kv.2 else none

/-- What one iteration of the first `compute_diff` loop appends to
`to_update`: an entry when the name has a truthy actual binding whose
normalized managed fields differ from the desired ones. -/
def updateOf (actual_by_name : PyDict Network) (kv : JVal × Network) :
    Option UpdateEntry :=
  match dictGet? actual_by_name kv.1 with
  | none => none
  | some actual_net =>
    if actual_net.falsy then none
    else if networks_differ (normalize_network_for_comparison kv.2)
        (normalize_network_for_comparison actual_net) then
      some ⟨kv.1, normalize_network_for_comparison actual_net,
        normalize_network_for_comparison kv.2⟩
    else none

/-- What one iteration of the first `compute_diff` loop appends to `drift`:
an entry when the name has truthy actual and recorded bindings whose
normalized managed fields differ. -/
def driftOf (recorded_by_name actual_by_name : PyDict Network)
    (kv : JVal × Network) : Option DriftEntry :=
  match dictGet? actual_by_name kv.1 with
  | none => none
  | some actual_net =>
    if actual_net.falsy then none
    else
      match dictGet? recorded_by_name kv.1 with
      | none => none
      | some recorded_net =>
        if recorded_net.falsy then none
        else if networks_differ (normalize_network_for_comparison actual_net)
            (normalize_network_for_comparison recorded_net) then
          some ⟨kv.1, normalize_network_for_comparison recorded_net,
            normalize_network_for_comparison actual_net⟩
        else none

/-- What one iteration of the deletion loop of `compute_diff` appends to
`to_delete`: the actual network when its name is no desired key and is a
string starting with `"test-"`. -/
def deleteOf (desired_by_name : PyDict Network) (kv : JVal × Network) :
    Option Network :=
  if dictMem desired_by_name kv.1 then none
  else
    match kv.1 with
    | .str s => if List.isPrefixOf "test-".data s.data then some kv.2 else none
    | _ => none

/-! ### Ideal controller for the idempotence claim -/

/-- Modelled from the spec: the live network controller is an external
collaborator (spec section 4.5) whose code is not part of this repository.
An ideal controller holds the site's network list and a fresh-id counter;
`controllerCreate` stores the submitted config with a fresh
controller-assigned id appended at the end and returns the stored network;
`controllerUpdate` replaces the network bearing the given id with the
submitted config and returns it.  Both operations always succeed. -/
structure ControllerState where
  nets : List Network
  fresh : Nat
deriving DecidableEq, Repr

/-- Modelled from the spec: `createNetwork(config) -> Network` on the ideal
controller (returns the stored network with its controller-assigned id). -/
def controllerCreate (st : ControllerState) (config : Network) :
    Network × ControllerState :=
  let stored := { config with net_id := some (.int (st.fresh : Int)) }
  (stored, ⟨st.nets ++ [stored], st.fresh + 1⟩)

/-- Modelled from the spec: `updateNetwork(id, config) -> Network` on the
ideal controller. -/
def controllerUpdate (st : ControllerState) (network_id : JVal)
    (config : Network) : Network × ControllerState :=
  (config,
   ⟨st.nets.map fun n =>
      if pyEq (n.net_id.getD .null) network_id then config else n, st.fresh⟩)

/-- `unifi_client.create_or_update_network(config)` against the ideal
controller: first the helper's own check `if not name: raise ValueError`
(Python truthiness, so `None` and `""` both raise), then the live state is
re-queried by name (`find_network_by_name`); a hit is updated with
`{**existing, **config}` (reading `existing["_id"]`, a `KeyError` when
absent), a miss is POSTed as a create. -/
def create_or_update_ideal (st : ControllerState) (config : Network) :
    Except String (Network × ControllerState) :=
  let name := config.name.getD .null
  if !name.truthy then
    .error "Network config must include 'name' field"
  else
    match st.nets.find? (fun n => pyEq n.nameKey name) with
    | some existing =>
      match existing.net_id with
      | none => .error "KeyError: _id"
      | some network_id =>
        .ok (controllerUpdate st network_id (Network.merge existing config))
    | none => .ok (controllerCreate st config)

/-- The `apply_networks` loop run against the ideal controller with
`fail_fast = false`: identical control flow to `applyLoop`, with the
controller state threaded through the create/update calls.  The create
branch goes through `create_or_update_ideal` exactly as the source goes
through `create_or_update_network`; exceptions caught by the handler
(`ValueError` on a falsy name, `KeyError` on a missing `_id`) append a
failure entry and the batch continues.  The uncaught `KeyError` on a
nameless desired config is kept. -/
def applyIdealLoop :
    List Network → List Network → List Network → List Failure → PyDict Network →
    ControllerState →
    Except String (List Network × List Network × List Failure × ControllerState)
  | [], created, updated, failures, _, st => .ok (created, updated, failures, st)
  | network_config :: rest, created, updated, failures, cache, st => do
    let name ← requireName network_config
    match dictGet? cache name with
    | some existing =>
      if existing.falsy then
        match create_or_update_ideal st network_config with
        | .ok (result, st') =>
          applyIdealLoop rest (created ++ [result]) updated failures
            (dictSet cache name result) st'
        | .error e =>
          applyIdealLoop rest created updated
            (failures ++ [⟨name, network_config.vlan.getD .null, e,
              network_config⟩]) cache st
      else
        match existing.net_id with
        | none =>
          applyIdealLoop rest created updated
            (failures ++ [⟨name, network_config.vlan.getD .null, "KeyError: _id",
              network_config⟩]) cache st
        | some network_id =>
          let (result, st') :=
            controllerUpdate st network_id (Network.merge existing network_config)
          applyIdealLoop rest created (updated ++ [result]) failures
            (dictSet cache name result) st'
    | none =>
      match create_or_update_ideal st network_config with
      | .ok (result, st') =>
        applyIdealLoop rest (created ++ [result]) updated failures
          (dictSet cache name result) st'
      | .error e =>
        applyIdealLoop rest created updated
          (failures ++ [⟨name, network_config.vlan.getD .null, e,
            network_config⟩]) cache st

/-- `apply_networks` with `fail_fast = false` against the ideal controller. -/
def applyIdeal (st : ControllerState) (desired_networks : List Network) :
    Except String (ApplyResult × ControllerState) := do
  let cache ← buildCache st.nets
  let (created, updated, failures, st') ←
    applyIdealLoop desired_networks [] [] [] cache st
  pure ({ created := created, updated := updated, unchanged := [],
          failures := failures, current_state := created ++ updated ++ [] },
        st')

/-- A desired config of the shape `build_network_config` produces: a
nonempty string name, truthy `vlan` and `ip_subnet`, the three DHCP keys
present, and no controller id. -/
def goodConfig (n : Network) : Prop :=
  (∃ s, n.name = some (JVal.str s) ∧ s ≠ "") ∧
  (∃ v, n.vlan = some v ∧ v.truthy = true) ∧
  (∃ v, n.ip_subnet = some v ∧ v.truthy = true) ∧
  n.dhcpd_enabled.isSome ∧ n.dhcpd_start.isSome ∧ n.dhcpd_stop.isSome ∧
  n.net_id = none

/-- Number of live controller networks bearing a given name. -/
def countByName (nets : List Network) (k : JVal) : Nat :=
  (nets.filter fun n => pyEq n.nameKey k).length

/-- The well-formedness invariant of the ideal controller state: every
network carries a string name and an id, names and ids are pairwise
distinct, and ids never collide with ids yet to be issued. -/
def stateInv (st : ControllerState) : Prop :=
  (∀ n ∈ st.nets, ∃ s, n.name = some (JVal.str s)) ∧
  (∀ n ∈ st.nets, ∃ i, n.net_id = some i) ∧
  (st.nets.map Network.nameKey).Pairwise (fun x y => pyEq x y = false) ∧
  (st.nets.map fun n => n.net_id.getD .null).Pairwise
    (fun x y => pyEq x y = false) ∧
  (∀ n ∈ st.nets, ∀ k, st.fresh ≤ k →
    pyEq (n.net_id.getD .null) (.int (k : Int)) = false)

/-- The pre-existing controller network of the C4 counterexample. -/
def c4cx_existing : Network :=
  { name := some (.str "x"), vlan := some (.int 7),
    net_id := some (.str "i1") }

/-- The C4 counterexample's desired network: only a name, no managed
fields. -/
def c4cx_desired : Network := { name := some (.str "x") }

/-- The post-apply network of the C4 counterexample. -/
def c4cx_merged : Network := Network.merge c4cx_existing c4cx_desired

/-! ### Concrete instances used by the claim theorems and witnesses -/

/-- The network produced by `build_desired_state` for VLAN id 0 named
`"lan"` with prefix `10.0.0.0/24`. -/
def c7_network : Network :=
  { name := some (.str "lan"), vlan := some (.int 0),
    ip_subnet := some (.str "10.0.0.1/24"), dhcpd_enabled := some (.bool true),
    dhcpd_start := some (.str "10.0.0.6"), dhcpd_stop := some (.str "10.0.0.254"),
    purpose := some (.str "corporate"), networkgroup := some (.str "LAN"),
    vlan_enabled := some (.bool true) }

/-- The C1 scenario's desired network: name and vlan only. -/
def c1_desired : Network := { name := some (.str "lan"), vlan := some (.int 10) }

/-- The C1 scenario's recorded network. -/
def c1_recorded : Network :=
  { name := some (.str "lan"), vlan := some (.int 10),
    dhcpd_start := some (.str "10.1.0.6") }

/-- The C1 scenario's actual network. -/
def c1_actual : Network :=
  { name := some (.str "lan"), vlan := some (.int 10),
    dhcpd_start := some (.str "10.1.0.50") }

/-- The C2 counterexample's desired network. -/
def c2_desired : Network := { name := some (.str "lan"), vlan := some (.int 10) }

/-- The C2 counterexample's recorded network (vlan drifted). -/
def c2_recorded : Network := { name := some (.str "lan"), vlan := some (.int 20) }

/-- The C2 counterexample's actual network (equal to desired). -/
def c2_actual : Network := { name := some (.str "lan"), vlan := some (.int 10) }

/-- The concrete client for the C3 witness: no pre-existing networks, and a
create call that fails exactly on the network named `"net-b"`. -/
def c3_client : Client where
  networks := []
  update := fun _ cfg => .ok cfg
  create := fun cfg =>
    if cfg.name = some (.str "net-b") then .error "boom" else .ok cfg

/-- First desired network of the C3 witness batch. -/
def c3_cfg_a : Network := { name := some (.str "net-a"), vlan := some (.int 10) }

/-- Second desired network of the C3 witness batch (its create fails). -/
def c3_cfg_b : Network := { name := some (.str "net-b"), vlan := some (.int 20) }

/-- Third desired network of the C3 witness batch. -/
def c3_cfg_c : Network := { name := some (.str "net-c"), vlan := some (.int 30) }

/-- The concrete client for the C10 witness: every call succeeds. -/
def c10_client : Client where
  networks := []
  update := fun _ cfg => .ok cfg
  create := fun cfg => .ok cfg

/-- The single desired network of the C10 witness. -/
def c10_cfg : Network := { name := some (.str "office") }

/-- The apply result of the C10 witness run. -/
def c10_result : ApplyResult :=
  { created := [c10_cfg], updated := [], unchanged := [], failures := [],
    current_state := [c10_cfg] }

instance {ε α : Type} [DecidableEq ε] [DecidableEq α] : DecidableEq (Except ε α) :=
  fun a b =>
  match a, b with
  | .ok x, .ok y => if h : x = y then .isTrue (by rw [h]) else .isFalse (by simp [h])
  | .error x, .error y =>
    if h : x = y then .isTrue (by rw [h]) else .isFalse (by simp [h])
  | .ok _, .error _ => .isFalse (by simp)
  | .error _, .ok _ => .isFalse (by simp)

/-- The C8 witness's single actual network: a stale ephemeral test network. -/
def c8_actual_net : Network := { name := some (.str "test-stale") }

/-- The C9 witness's single desired network. -/
def c9w_net : Network := { name := some (.str "lan"), vlan := some (.int 10) }

/-- The C4 witness's desired network: a full builder-shaped config. -/
def c4w_cfg : Network :=
  { name := some (.str "office"), vlan := some (.int 10),
    ip_subnet := some (.str "10.0.0.1/24"), dhcpd_enabled := some (.bool true),
    dhcpd_start := some (.str "10.0.0.6"),
    dhcpd_stop := some (.str "10.0.0.254") }

/-! ### Basic lemmas about the Python-semantics primitives -/

theorem pyEq_refl (a : JVal) : pyEq a a = true := by
  cases a <;> simp [pyEq, JVal.toNum?]

theorem pyEq_symm {a b : JVal} (h : pyEq a b = true) : pyEq b a = true := by
  cases a <;> cases b <;> simp_all [pyEq, JVal.toNum?]

theorem pyEq_trans {a b c : JVal} (h1 : pyEq a b = true) (h2 : pyEq b c = true) :
    pyEq a c = true := by
  cases a <;> cases b <;> cases c <;> simp_all [pyEq, JVal.toNum?]

/-- Inversion of a successful `compute_diff` run into its three pieces: the
desired-networks dict, the create/update/drift fold and the deletion fold. -/
lemma compute_diff_ok_iff {desired recorded actual : List Network}
    {d : DiffResult} :
    compute_diff desired recorded actual = .ok d ↔
    ∃ dict to_delete, buildDesiredDict desired = .ok dict ∧
      List.foldlM (deleteStep dict) [] (buildDictByName actual) = .ok to_delete ∧
      d = { to_create := (dict.foldl (diffStep (buildDictByName recorded)
              (buildDictByName actual)) ([], [], [])).1,
            to_update := (dict.foldl (diffStep (buildDictByName recorded)
              (buildDictByName actual)) ([], [], [])).2.1,
            to_delete := to_delete,
            drift := (dict.foldl (diffStep (buildDictByName recorded)
              (buildDictByName actual)) ([], [], [])).2.2,
            is_clean := (dict.foldl (diffStep (buildDictByName recorded)
              (buildDictByName actual)) ([], [], [])).1.isEmpty &&
              ((dict.foldl (diffStep (buildDictByName recorded)
                (buildDictByName actual)) ([], [], [])).2.1.isEmpty &&
              to_delete.isEmpty) } := by
  unfold compute_diff
  cases hb : buildDesiredDict desired with
  | error e => simp [Except.bind, bind, Functor.map, Except.map, hb]
  | ok dict =>
    cases hd : List.foldlM (deleteStep dict) [] (buildDictByName actual) with
    | error e => simp [Except.bind, bind, Functor.map, Except.map, hb, hd]
    | ok td =>
      simp [Except.bind, bind, Functor.map, Except.map, pure, Except.pure, hb,
        hd, eq_comm, Bool.and_assoc]

/-! ### Dict and fold lemmas for the reconciliation proofs -/

lemma pyEq_comm (a b : JVal) : pyEq a b = pyEq b a := by
  cases hab : pyEq a b <;> cases hba : pyEq b a
  · rfl
  · exact absurd (pyEq_symm hba) (by simp [hab])
  · exact absurd (pyEq_symm hab) (by simp [hba])
  · rfl

lemma pyEq_str_iff {s : String} {x : JVal} :
    pyEq (JVal.str s) x = true ↔ x = .str s := by
  cases x <;> simp [pyEq, JVal.toNum?]
  exact eq_comm

lemma dictGet?_dictSet {α : Type} (d : PyDict α) (k : JVal) (v : α) (k' : JVal) :
    dictGet? (dictSet d k v) k' =
      if pyEq k k' then some v else dictGet? d k' := by
  induction d with
  | nil => simp [dictSet, dictGet?]
  | cons kv rest ih =>
    obtain ⟨a, b⟩ := kv
    by_cases hak : pyEq a k
    · simp only [dictSet, hak, if_pos]
      by_cases hkk : pyEq k k'
      · have : pyEq a k' = true := pyEq_trans hak hkk
        simp [dictGet?, this, hkk]
      · have : pyEq a k' = false := by
          by_contra hc
          simp only [Bool.not_eq_false] at hc
          exact absurd (pyEq_trans (pyEq_symm hak) hc) (by simp [hkk])
        simp [dictGet?, this, hkk]
    · simp only [dictSet, hak, Bool.false_eq_true, if_false]
      by_cases hak' : pyEq a k'
      · have hka : pyEq k a = false := by rw [pyEq_comm]; simpa using hak
        have hkk : pyEq k k' = false := by
          by_contra hc
          simp only [Bool.not_eq_false] at hc
          exact absurd (pyEq_trans hc (pyEq_symm hak')) (by simp [hka])
        simp [dictGet?, hak', hkk]
      · simp [dictGet?, hak', ih]

lemma dictGet?_eq_none_iff {α : Type} (d : PyDict α) (k : JVal) :
    dictGet? d k = none ↔ ∀ kv ∈ d, pyEq kv.1 k = false := by
  induction d with
  | nil => simp [dictGet?]
  | cons kv rest ih =>
    obtain ⟨a, b⟩ := kv
    by_cases hak : pyEq a k <;> simp [dictGet?, hak, ih]

lemma dictGet?_some_mem {α : Type} {d : PyDict α} {k : JVal} {v : α}
    (h : dictGet? d k = some v) : ∃ k', (k', v) ∈ d ∧ pyEq k' k = true := by
  induction d with
  | nil => simp [dictGet?] at h
  | cons p rest ih =>
    obtain ⟨a, b⟩ := p
    by_cases hak : pyEq a k
    · simp only [dictGet?, hak, if_pos, Option.some_inj] at h
      exact ⟨a, by simp [h], hak⟩
    · simp only [dictGet?, hak, Bool.false_eq_true, if_false] at h
      obtain ⟨k', hk1, hk2⟩ := ih h
      exact ⟨k', List.mem_cons_of_mem _ hk1, hk2⟩

lemma mem_dictSet {α : Type} {d : PyDict α} {k : JVal} {v : α} :
    ∀ kv ∈ dictSet d k v, kv ∈ d ∨ (kv.2 = v ∧ pyEq kv.1 k = true) := by
  induction d with
  | nil =>
    intro kv h
    simp [dictSet] at h
    subst h
    exact Or.inr ⟨rfl, pyEq_refl k⟩
  | cons p rest ih =>
    intro kv h
    obtain ⟨a, b⟩ := p
    by_cases hak : pyEq a k
    · simp only [dictSet, hak, if_pos, List.mem_cons] at h
      rcases h with h | h
      · subst h; exact Or.inr ⟨rfl, hak⟩
      · exact Or.inl (List.mem_cons_of_mem _ h)
    · simp only [dictSet, hak, Bool.false_eq_true, if_false, List.mem_cons] at h
      rcases h with h | h
      · subst h; exact Or.inl (List.mem_cons_self _ _)
      · rcases ih kv h with h' | h'
        · exact Or.inl (List.mem_cons_of_mem _ h')
        · exact Or.inr h'

/-- Dict-wide invariants survive insertion, provided the invariant is stable
under replacing a binding's key by a `pyEq`-equal one. -/
lemma dictSet_forall {α : Type} {P : JVal → α → Prop}
    (compat : ∀ k k' v, pyEq k' k = true → P k v → P k' v)
    {d : PyDict α} {k : JVal} {v : α}
    (hd : ∀ kv ∈ d, P kv.1 kv.2) (hkv : P k v) :
    ∀ kv ∈ dictSet d k v, P kv.1 kv.2 := by
  intro kv h
  rcases mem_dictSet kv h with h' | ⟨h2, h1⟩
  · exact hd kv h'
  · rw [h2]
    exact compat k kv.1 v h1 hkv

lemma dictOfList_forall {α : Type} {P : JVal → α → Prop}
    (compat : ∀ k k' v, pyEq k' k = true → P k v → P k' v)
    (l : List (JVal × α)) (hl : ∀ kv ∈ l, P kv.1 kv.2) :
    ∀ kv ∈ dictOfList l, P kv.1 kv.2 := by
  suffices h : ∀ (acc : PyDict α), (∀ kv ∈ acc, P kv.1 kv.2) →
      ∀ kv ∈ l.foldl (fun d kv => dictSet d kv.1 kv.2) acc, P kv.1 kv.2 by
    exact h [] (by simp)
  induction l with
  | nil => intro acc hacc; simpa using hacc
  | cons p l ih =>
    intro acc hacc kv h
    rw [List.foldl_cons] at h
    refine ih (fun q hq => hl q (List.mem_cons_of_mem _ hq)) _ ?_ kv h
    exact dictSet_forall compat hacc (hl p (List.mem_cons_self _ _))

/-- Every binding of a by-name dict keys a network whose own name matches
the slot key, and stores a member of the original list. -/
lemma mem_buildDictByName {l : List Network} :
    ∀ kv ∈ buildDictByName l, pyEq kv.1 kv.2.nameKey = true ∧ kv.2 ∈ l := by
  rw [buildDictByName]
  refine dictOfList_forall (P := fun k v => pyEq k v.nameKey = true ∧ v ∈ l) ?_ _ ?_
  · rintro k k' v hk ⟨h1, h2⟩
    exact ⟨pyEq_trans hk h1, h2⟩
  · intro kv h
    simp only [List.mem_map] at h
    obtain ⟨net, hnet, rfl⟩ := h
    exact ⟨pyEq_refl _, hnet⟩

lemma dictMem_dictOfList {α : Type} (l : List (JVal × α)) (k : JVal) :
    dictMem (dictOfList l) k = true ↔ ∃ kv ∈ l, pyEq kv.1 k = true := by
  suffices h : ∀ (acc : PyDict α),
      dictMem (l.foldl (fun d kv => dictSet d kv.1 kv.2) acc) k = true ↔
        (dictMem acc k = true ∨ ∃ kv ∈ l, pyEq kv.1 k = true) by
    have := h []
    simpa [dictMem, dictGet?] using this
  induction l with
  | nil => intro acc; simp
  | cons p l ih =>
    intro acc
    rw [List.foldl_cons, ih]
    have : dictMem (dictSet acc p.1 p.2) k = true ↔
        (pyEq p.1 k = true ∨ dictMem acc k = true) := by
      simp only [dictMem, dictGet?_dictSet]
      by_cases hp : pyEq p.1 k <;> simp [hp]
    rw [this]
    constructor
    · rintro (⟨h | h⟩ | h)
      · exact Or.inr ⟨p, List.mem_cons_self _ _, h⟩
      · exact Or.inl h
      · obtain ⟨kv, hkv, hk⟩ := h
        exact Or.inr ⟨kv, List.mem_cons_of_mem _ hkv, hk⟩
    · rintro (h | ⟨kv, hkv, hk⟩)
      · exact Or.inl (Or.inr h)
      · rcases List.mem_cons.mp hkv with rfl | hkv'
        · exact Or.inl (Or.inl hk)
        · exact Or.inr ⟨kv, hkv', hk⟩

lemma dictMem_buildDictByName (l : List Network) (k : JVal) :
    dictMem (buildDictByName l) k = true ↔ ∃ net ∈ l, pyEq net.nameKey k = true := by
  rw [buildDictByName, dictMem_dictOfList]
  constructor
  · rintro ⟨kv, hkv, hk⟩
    simp only [List.mem_map] at hkv
    obtain ⟨net, hnet, rfl⟩ := hkv
    exact ⟨net, hnet, hk⟩
  · rintro ⟨net, hnet, hk⟩
    exact ⟨(net.nameKey, net), List.mem_map_of_mem _ hnet, hk⟩

lemma dictMem_of_mem {α : Type} {d : PyDict α} {kv : JVal × α} (h : kv ∈ d) :
    dictMem d kv.1 = true := by
  induction d with
  | nil => simp at h
  | cons p rest ih =>
    rcases List.mem_cons.mp h with rfl | h'
    · simp [dictMem, dictGet?, pyEq_refl]
    · by_cases hp : pyEq p.1 kv.1
      · simp [dictMem, dictGet?, hp]
      · simp only [dictMem, dictGet?, hp, Bool.false_eq_true, if_false]
        simpa [dictMem] using ih h'

/-- The slot keys of a dict. -/
lemma dictKeys_dictSet {α : Type} (d : PyDict α) (k : JVal) (v : α) :
    dictKeys (dictSet d k v) =
      if dictMem d k then dictKeys d else dictKeys d ++ [k] := by
  induction d with
  | nil => simp [dictKeys, dictSet, dictMem, dictGet?]
  | cons p rest ih =>
    obtain ⟨a, b⟩ := p
    by_cases hak : pyEq a k
    · simp [dictKeys, dictSet, dictMem, dictGet?, hak]
    · simp only [dictKeys, dictSet, hak, Bool.false_eq_true, if_false,
        List.map_cons, dictMem, dictGet?] at ih ⊢
      by_cases hm : (dictGet? rest k).isSome <;> simp [hm] at ih ⊢ <;> simp [ih]

/-- The keys of any dict built by repeated insertion are pairwise distinct
(up to Python equality). -/
lemma dictKeys_pairwise_dictSet {α : Type} {d : PyDict α} (k : JVal) (v : α)
    (h : (dictKeys d).Pairwise (fun x y => pyEq x y = false)) :
    (dictKeys (dictSet d k v)).Pairwise (fun x y => pyEq x y = false) := by
  rw [dictKeys_dictSet]
  by_cases hm : dictMem d k
  · simpa [hm] using h
  · simp only [hm, Bool.false_eq_true, if_false]
    rw [List.pairwise_append]
    refine ⟨h, by simp, ?_⟩
    intro x hx y hy
    simp only [List.mem_singleton] at hy
    have hnone : dictGet? d k = none := by
      cases hg : dictGet? d k with
      | none => rfl
      | some w => exact absurd (by simp [dictMem, hg] : dictMem d k = true) hm
    simp only [dictKeys, List.mem_map] at hx
    obtain ⟨kv, hkv, rfl⟩ := hx
    rw [hy]
    exact (dictGet?_eq_none_iff d k).mp hnone kv hkv

lemma dictKeys_pairwise_dictOfList {α : Type} (l : List (JVal × α)) :
    (dictKeys (dictOfList l)).Pairwise (fun x y => pyEq x y = false) := by
  suffices h : ∀ (acc : PyDict α),
      (dictKeys acc).Pairwise (fun x y => pyEq x y = false) →
      (dictKeys (l.foldl (fun d kv => dictSet d kv.1 kv.2) acc)).Pairwise
        (fun x y => pyEq x y = false) by
    exact h [] (by simp [dictKeys])
  induction l with
  | nil => intro acc hacc; simpa using hacc
  | cons p l ih =>
    intro acc hacc
    rw [List.foldl_cons]
    exact ih _ (dictKeys_pairwise_dictSet p.1 p.2 hacc)

/-- In a dict with pairwise-distinct keys, two bindings with `pyEq` keys are
the same binding. -/
lemma pairwise_key_eq {α : Type} {d : PyDict α}
    (hp : (dictKeys d).Pairwise (fun x y => pyEq x y = false))
    {kv kv' : JVal × α} (h1 : kv ∈ d) (h2 : kv' ∈ d)
    (he : pyEq kv.1 kv'.1 = true) : kv = kv' := by
  induction d with
  | nil => simp at h1
  | cons p rest ih =>
    simp only [dictKeys, List.map_cons, List.pairwise_cons] at hp
    obtain ⟨hhead, htail⟩ := hp
    rcases List.mem_cons.mp h1 with rfl | h1' <;>
      rcases List.mem_cons.mp h2 with rfl | h2'
    · rfl
    · exact absurd he (by simp [hhead kv'.1 (List.mem_map_of_mem _ h2')])
    · have := hhead kv.1 (List.mem_map_of_mem _ h1')
      exact absurd (pyEq_symm he) (by simp [this])
    · exact ih htail h1' h2'

/-- A successful desired-dict build: all desired networks carry a name, and
the dict is exactly the by-name dict. -/
lemma buildDesiredDictAux_ok :
    ∀ (l : List Network) (acc d : PyDict Network),
      buildDesiredDictAux acc l = .ok d →
      d = l.foldl (fun acc net => dictSet acc net.nameKey net) acc ∧
        ∀ net ∈ l, net.name.isSome := by
  intro l
  induction l with
  | nil =>
    intro acc d h
    simp [buildDesiredDictAux, pure, Except.pure] at h
    simp [h]
  | cons net l ih =>
    intro acc d h
    simp only [buildDesiredDictAux, requireName] at h
    cases hn : net.name with
    | none => rw [hn] at h; simp [Except.bind, bind] at h
    | some v =>
      rw [hn] at h
      simp only [Except.bind, bind] at h
      obtain ⟨hd, hall⟩ := ih (dictSet acc v net) d h
      refine ⟨?_, ?_⟩
      · rw [hd, List.foldl_cons]
        have : net.nameKey = v := by simp [Network.nameKey, hn]
        rw [this]
      · intro m hm
        rcases List.mem_cons.mp hm with rfl | hm'
        · simp [hn]
        · exact hall m hm'

lemma buildDesiredDict_ok {desired : List Network} {d : PyDict Network}
    (h : buildDesiredDict desired = .ok d) :
    d = buildDictByName desired ∧ ∀ net ∈ desired, net.name.isSome := by
  obtain ⟨hd, hall⟩ := buildDesiredDictAux_ok desired [] d h
  refine ⟨?_, hall⟩
  rw [hd, buildDictByName, dictOfList, List.foldl_map]

lemma diffStep_eq (r a : PyDict Network)
    (acc : List Network × List UpdateEntry × List DriftEntry)
    (kv : JVal × Network) :
    diffStep r a acc kv =
      (acc.1 ++ (createOf a kv).toList, acc.2.1 ++ (updateOf a kv).toList,
       acc.2.2 ++ (driftOf r a kv).toList) := by
  obtain ⟨tc, tu, dr⟩ := acc
  obtain ⟨k, v⟩ := kv
  simp only [diffStep, createOf, updateOf, driftOf]
  cases hg : dictGet? a k with
  | none => simp
  | some an =>
    cases hf : an.falsy
    · cases hgr : dictGet? r k with
      | none =>
        by_cases hd : networks_differ (normalize_network_for_comparison v)
            (normalize_network_for_comparison an) <;> simp [hf, hd]
      | some rn =>
        cases hfr : rn.falsy
        · by_cases hd : networks_differ (normalize_network_for_comparison v)
              (normalize_network_for_comparison an) <;>
          by_cases hd2 : networks_differ (normalize_network_for_comparison an)
              (normalize_network_for_comparison rn) <;>
            simp [hf, hfr, hd, hd2]
        · by_cases hd : networks_differ (normalize_network_for_comparison v)
              (normalize_network_for_comparison an) <;> simp [hf, hfr, hd]
    · simp [hf]

lemma foldl_diffStep (r a : PyDict Network) (items : List (JVal × Network)) :
    ∀ acc, items.foldl (diffStep r a) acc =
      (acc.1 ++ items.filterMap (createOf a),
       acc.2.1 ++ items.filterMap (updateOf a),
       acc.2.2 ++ items.filterMap (driftOf r a)) := by
  induction items with
  | nil => intro acc; simp
  | cons kv items ih =>
    intro acc
    rw [List.foldl_cons, diffStep_eq, ih]
    cases hc : createOf a kv <;> cases hu : updateOf a kv <;>
      cases hd : driftOf r a kv <;>
      simp [List.filterMap_cons, hc, hu, hd]

lemma foldlM_deleteStep_ok (dd : PyDict Network) (items : List (JVal × Network)) :
    ∀ acc out, List.foldlM (deleteStep dd) acc items = .ok out →
      out = acc ++ items.filterMap (deleteOf dd) := by
  induction items with
  | nil =>
    intro acc out h
    simp [List.foldlM, pure, Except.pure] at h
    simp [h]
  | cons kv items ih =>
    intro acc out h
    rw [List.foldlM_cons] at h
    unfold deleteStep at h
    by_cases hm : dictMem dd kv.1
    · rw [if_pos hm] at h
      simp only [pure, Except.pure, Except.bind, bind] at h
      have := ih acc out h
      simp [this, List.filterMap_cons, deleteOf, hm]
    · rw [if_neg hm] at h
      cases hk : kv.1 with
      | str s =>
        rw [hk] at h hm
        simp only [keyStartsWithTest, pure, Except.pure, Except.bind, bind] at h
        by_cases hpre : List.isPrefixOf "test-".data s.data
        · rw [if_pos hpre] at h
          have := ih (acc ++ [kv.2]) out h
          simp [this, List.filterMap_cons, deleteOf, hm, hk, hpre]
        · rw [if_neg hpre] at h
          have := ih acc out h
          simp [this, List.filterMap_cons, deleteOf, hm, hk, hpre]
      | null => rw [hk] at h; simp [keyStartsWithTest, Except.bind, bind] at h
      | bool b => rw [hk] at h; simp [keyStartsWithTest, Except.bind, bind] at h
      | int n => rw [hk] at h; simp [keyStartsWithTest, Except.bind, bind] at h

lemma createOf_some {a : PyDict Network} {kv : JVal × Network} {m : Network}
    (h : createOf a kv = some m) : m = kv.2 := by
  unfold createOf at h
  cases hg : dictGet? a kv.1 <;> rw [hg] at h
  · simpa [eq_comm] using h
  · rename_i an
    by_cases hf : an.falsy <;> simp [hf, eq_comm] at h
    exact h

lemma updateOf_some_name {a : PyDict Network} {kv : JVal × Network}
    {u : UpdateEntry} (h : updateOf a kv = some u) : u.name = kv.1 := by
  unfold updateOf at h
  cases hg : dictGet? a kv.1 <;> rw [hg] at h
  · simp at h
  · rename_i an
    by_cases hf : an.falsy
    · simp [hf] at h
    · by_cases hd : networks_differ (normalize_network_for_comparison kv.2)
          (normalize_network_for_comparison an) <;> simp [hf, hd] at h
      rw [← h]

lemma driftOf_some_name {r a : PyDict Network} {kv : JVal × Network}
    {dr : DriftEntry} (h : driftOf r a kv = some dr) : dr.name = kv.1 := by
  unfold driftOf at h
  cases hg : dictGet? a kv.1 <;> rw [hg] at h
  · simp at h
  · rename_i an
    by_cases hf : an.falsy
    · simp [hf] at h
    · cases hgr : dictGet? r kv.1 <;> rw [hgr] at h
      · simp [hf] at h
      · rename_i rn
        by_cases hfr : rn.falsy
        · simp [hf, hfr] at h
        · by_cases hd : networks_differ (normalize_network_for_comparison an)
              (normalize_network_for_comparison rn) <;> simp [hf, hfr, hd] at h
          rw [← h]

lemma deleteOf_some_elim {dd : PyDict Network} {kv : JVal × Network}
    {m : Network} (h : deleteOf dd kv = some m) :
    m = kv.2 ∧ dictMem dd kv.1 = false ∧
      ∃ s, kv.1 = JVal.str s ∧ List.isPrefixOf "test-".data s.data = true := by
  unfold deleteOf at h
  by_cases hm : dictMem dd kv.1
  · rw [if_pos hm] at h
    simp at h
  · rw [if_neg hm] at h
    cases hk : kv.1 with
    | str s =>
      rw [hk] at h
      by_cases hpre : List.isPrefixOf "test-".data s.data
      · simp only [hpre, if_pos] at h
        exact ⟨(Option.some_inj.mp h).symm, by simpa [hk] using hm, s, rfl, hpre⟩
      · simp [hpre] at h
    | null => rw [hk] at h; simp at h
    | bool b => rw [hk] at h; simp at h
    | int n => rw [hk] at h; simp at h

lemma deleteOf_eq_some {dd : PyDict Network} {kv : JVal × Network} {s : String}
    (hm : dictMem dd kv.1 = false) (hk : kv.1 = JVal.str s)
    (hpre : List.isPrefixOf "test-".data s.data = true) :
    deleteOf dd kv = some kv.2 := by
  unfold deleteOf
  rw [hk] at hm ⊢
  simp [hm, hpre]

lemma updateOf_eq_none_of_createOf {a : PyDict Network} {kv : JVal × Network}
    {m : Network} (h : createOf a kv = some m) : updateOf a kv = none := by
  unfold createOf at h
  unfold updateOf
  cases hg : dictGet? a kv.1 with
  | none => rfl
  | some an =>
    rw [hg] at h
    by_cases hf : an.falsy
    · simp [hf]
    · simp [hf] at h

lemma driftOf_eq_none_of_createOf {r a : PyDict Network} {kv : JVal × Network}
    {m : Network} (h : createOf a kv = some m) : driftOf r a kv = none := by
  unfold createOf at h
  unfold driftOf
  cases hg : dictGet? a kv.1 with
  | none => rfl
  | some an =>
    rw [hg] at h
    by_cases hf : an.falsy
    · simp [hf]
    · simp [hf] at h

/-! ### Ideal-controller lemmas for the idempotence claim -/

lemma network_falsy_of_name {n : Network} {v : JVal} (h : n.name = some v) :
    n.falsy = false := by
  rw [Network.falsy, beq_eq_false_iff_ne]
  intro he
  rw [he] at h
  simp at h

lemma normalize_set_id (c : Network) (x : Option JVal) :
    normalize_network_for_comparison { c with net_id := x } =
      normalize_network_for_comparison c := rfl

lemma networks_differ_self (a : NormalizedNetwork) :
    networks_differ a a = false := by
  simp [networks_differ, pyEq_refl]

lemma normalize_merge_good {existing config : Network} (h : goodConfig config) :
    normalize_network_for_comparison (Network.merge existing config) =
      normalize_network_for_comparison config := by
  obtain ⟨⟨s, hname, hne⟩, ⟨v, hv, hvt⟩, ⟨w, hw, hwt⟩, he, hs, hp, hid⟩ := h
  rw [Option.isSome_iff_exists] at he hs hp
  obtain ⟨ev, hev⟩ := he
  obtain ⟨sv, hsv⟩ := hs
  obtain ⟨pv, hpv⟩ := hp
  simp [normalize_network_for_comparison, Network.merge, hname, hv, hw, hev,
    hsv, hpv, pyOr, hvt, hwt]

lemma mem_unique_of_pairwise_map {α : Type} {f : α → JVal} {l : List α}
    (hp : (l.map f).Pairwise (fun x y => pyEq x y = false))
    {a b : α} (ha : a ∈ l) (hb : b ∈ l) (h : pyEq (f a) (f b) = true) :
    a = b := by
  induction l with
  | nil => simp at ha
  | cons x l ih =>
    simp only [List.map_cons, List.pairwise_cons] at hp
    obtain ⟨hhead, htail⟩ := hp
    rcases List.mem_cons.mp ha with rfl | ha' <;>
      rcases List.mem_cons.mp hb with rfl | hb'
    · rfl
    · exact absurd h (by simp [hhead (f b) (List.mem_map_of_mem _ hb')])
    · exact absurd (pyEq_symm h)
        (by simp [hhead (f a) (List.mem_map_of_mem _ ha')])
    · exact ih htail ha' hb'

lemma dictSet_append_of_none {α : Type} {d : PyDict α} {k : JVal} {v : α}
    (h : dictGet? d k = none) : dictSet d k v = d ++ [(k, v)] := by
  induction d with
  | nil => simp [dictSet]
  | cons p rest ih =>
    obtain ⟨a, b⟩ := p
    by_cases hak : pyEq a k
    · simp [dictGet?, hak] at h
    · simp only [dictGet?, hak, Bool.false_eq_true, if_false] at h
      simp [dictSet, hak, ih h]

lemma dictGet?_map_pairs (nets : List Network) (k : JVal) :
    dictGet? (nets.map fun n => (n.nameKey, n)) k =
      nets.find? (fun n => pyEq n.nameKey k) := by
  induction nets with
  | nil => simp [dictGet?]
  | cons n nets ih =>
    by_cases hk : pyEq n.nameKey k <;>
      simp [dictGet?, List.find?_cons, hk, ih]

lemma foldl_dictSet_cons {α : Type} (l : List (JVal × α)) (p : JVal × α) :
    ∀ (acc : PyDict α), (∀ kv ∈ l, pyEq p.1 kv.1 = false) →
    l.foldl (fun d kv => dictSet d kv.1 kv.2) (p :: acc) =
      p :: l.foldl (fun d kv => dictSet d kv.1 kv.2) acc := by
  induction l with
  | nil => intro acc _; rfl
  | cons q l ih =>
    intro acc h
    rw [List.foldl_cons, List.foldl_cons]
    have hq : pyEq p.1 q.1 = false := h q (List.mem_cons_self _ _)
    have : dictSet (p :: acc) q.1 q.2 = p :: dictSet acc q.1 q.2 := by
      obtain ⟨pk, pv⟩ := p
      simp [dictSet, hq]
    rw [this, ih _ (fun kv hkv => h kv (List.mem_cons_of_mem _ hkv))]

lemma dictOfList_eq_self {α : Type} {l : List (JVal × α)}
    (hp : (l.map Prod.fst).Pairwise (fun x y => pyEq x y = false)) :
    dictOfList l = l := by
  induction l with
  | nil => rfl
  | cons p l ih =>
    simp only [List.map_cons, List.pairwise_cons] at hp
    obtain ⟨hhead, htail⟩ := hp
    rw [dictOfList, List.foldl_cons]
    have h1 : dictSet [] p.1 p.2 = [p] := by simp [dictSet]
    rw [h1, foldl_dictSet_cons _ _ [] ?keys]
    · rw [← dictOfList, ih htail]
    case keys =>
      intro kv hkv
      exact hhead kv.1 (List.mem_map_of_mem _ hkv)

lemma buildCacheAux_ok :
    ∀ (l : List Network) (acc d : PyDict Network),
      buildCacheAux acc l = .ok d →
      d = l.foldl (fun acc net => dictSet acc net.nameKey net) acc ∧
        ∀ net ∈ l, net.name.isSome := by
  intro l
  induction l with
  | nil =>
    intro acc d h
    simp [buildCacheAux, pure, Except.pure] at h
    simp [h]
  | cons net l ih =>
    intro acc d h
    simp only [buildCacheAux, requireName] at h
    cases hn : net.name with
    | none => rw [hn] at h; simp [Except.bind, bind] at h
    | some v =>
      rw [hn] at h
      simp only [Except.bind, bind] at h
      obtain ⟨hd, hall⟩ := ih (dictSet acc v net) d h
      refine ⟨?_, ?_⟩
      · rw [hd, List.foldl_cons]
        have : net.nameKey = v := by simp [Network.nameKey, hn]
        rw [this]
      · intro m hm
        rcases List.mem_cons.mp hm with rfl | hm'
        · simp [hn]
        · exact hall m hm'

lemma buildCache_ok {nets : List Network} {d : PyDict Network}
    (h : buildCache nets = .ok d) :
    d = buildDictByName nets ∧ ∀ net ∈ nets, net.name.isSome := by
  obtain ⟨hd, hall⟩ := buildCacheAux_ok nets [] d h
  refine ⟨?_, hall⟩
  rw [hd, buildDictByName, dictOfList, List.foldl_map]

lemma buildCache_total {nets : List Network}
    (h : ∀ net ∈ nets, net.name.isSome) :
    buildCache nets = .ok (buildDictByName nets) := by
  suffices hs : ∀ (acc : PyDict Network), buildCacheAux acc nets =
      .ok (nets.foldl (fun acc net => dictSet acc net.nameKey net) acc) by
    rw [buildCache, hs [], buildDictByName, dictOfList, List.foldl_map]
  induction nets with
  | nil => intro acc; simp [buildCacheAux, pure, Except.pure]
  | cons net l ih =>
    intro acc
    obtain ⟨v, hv⟩ := Option.isSome_iff_exists.mp (h net (List.mem_cons_self _ _))
    have hkey : net.nameKey = v := by simp [Network.nameKey, hv]
    simp only [buildCacheAux, requireName, hv, Except.bind, bind,
      List.foldl_cons, hkey]
    exact ih (fun m hm => h m (List.mem_cons_of_mem _ hm)) _

lemma buildDesiredDict_total {desired : List Network}
    (h : ∀ net ∈ desired, net.name.isSome) :
    buildDesiredDict desired = .ok (buildDictByName desired) := by
  suffices hs : ∀ (acc : PyDict Network), buildDesiredDictAux acc desired =
      .ok (desired.foldl (fun acc net => dictSet acc net.nameKey net) acc) by
    rw [buildDesiredDict, hs [], buildDictByName, dictOfList, List.foldl_map]
  induction desired with
  | nil => intro acc; simp [buildDesiredDictAux, pure, Except.pure]
  | cons net l ih =>
    intro acc
    obtain ⟨v, hv⟩ := Option.isSome_iff_exists.mp (h net (List.mem_cons_self _ _))
    have hkey : net.nameKey = v := by simp [Network.nameKey, hv]
    simp only [buildDesiredDictAux, requireName, hv, Except.bind, bind,
      List.foldl_cons, hkey]
    exact ih (fun m hm => h m (List.mem_cons_of_mem _ hm)) _

lemma foldlM_deleteStep_total {dd : PyDict Network}
    {items : List (JVal × Network)}
    (h : ∀ kv ∈ items, ∃ s, kv.1 = JVal.str s) :
    ∀ acc, ∃ out, List.foldlM (deleteStep dd) acc items = .ok out := by
  induction items with
  | nil => intro acc; exact ⟨acc, by simp [List.foldlM, pure, Except.pure]⟩
  | cons kv items ih =>
    intro acc
    obtain ⟨s, hs⟩ := h kv (List.mem_cons_self _ _)
    have ihh := ih (fun q hq => h q (List.mem_cons_of_mem _ hq))
    rw [List.foldlM_cons]
    unfold deleteStep
    by_cases hm : dictMem dd kv.1
    · rw [if_pos hm]
      obtain ⟨out, hout⟩ := ihh acc
      exact ⟨out, by simpa [pure, Except.pure, Except.bind, bind] using hout⟩
    · rw [if_neg hm, hs]
      simp only [keyStartsWithTest]
      by_cases hpre : List.isPrefixOf "test-".data s.data
      · obtain ⟨out, hout⟩ := ihh (acc ++ [kv.2])
        exact ⟨out, by simpa [hpre, pure, Except.pure, Except.bind, bind]
          using hout⟩
      · obtain ⟨out, hout⟩ := ihh acc
        exact ⟨out, by simpa [hpre, pure, Except.pure, Except.bind, bind]
          using hout⟩

lemma dictSet_map_pairs_update {nets : List Network} {existing result : Network}
    {name : JVal}
    (hpn : (nets.map Network.nameKey).Pairwise (fun x y => pyEq x y = false))
    (hmem : existing ∈ nets) (hkey : existing.nameKey = name) :
    dictSet (nets.map fun n => (n.nameKey, n)) name result =
      nets.map (fun n => (n.nameKey, if n = existing then result else n)) := by
  induction nets with
  | nil => simp at hmem
  | cons n nets ih =>
    simp only [List.map_cons, List.pairwise_cons] at hpn
    obtain ⟨hhead, htail⟩ := hpn
    by_cases hpy : pyEq n.nameKey name
    · -- the head is the binding being replaced
      have hn : n = existing := by
        rcases List.mem_cons.mp hmem with rfl | hmem'
        · rfl
        · exact absurd hpy (by
            simpa [hkey] using
              hhead existing.nameKey (List.mem_map_of_mem _ hmem'))
      subst hn
      have htaileq : (nets.map fun m => (m.nameKey, if m = n then result else m))
          = nets.map fun m => (m.nameKey, m) := by
        refine List.map_congr_left ?_
        intro m hm
        have : ¬(m = n) := by
          rintro rfl
          exact absurd (pyEq_refl m.nameKey)
            (by simp [hhead m.nameKey (List.mem_map_of_mem _ hm)])
        simp [this]
      simp only [List.map_cons, dictSet, hpy, if_pos, if_true, htaileq]
    · -- the head is untouched
      have hne : ¬(n = existing) := by
        rintro rfl
        exact absurd hpy (by simp [hkey, pyEq_refl])
      have hmem' : existing ∈ nets := by
        rcases List.mem_cons.mp hmem with rfl | hmem'
        · exact absurd rfl hne
        · exact hmem'
      simp only [List.map_cons, dictSet, hpy, Bool.false_eq_true, if_false,
        hne]
      rw [ih htail hmem']

lemma update_replace_eq {nets : List Network} {existing : Network} {i : JVal}
    (hpi : (nets.map fun n => n.net_id.getD .null).Pairwise
      (fun x y => pyEq x y = false))
    (hmem : existing ∈ nets) (hexid : existing.net_id = some i)
    (result : Network) :
    nets.map (fun n => if pyEq (n.net_id.getD .null) i then result else n) =
      nets.map (fun n => if n = existing then result else n) := by
  refine List.map_congr_left ?_
  intro n hn
  by_cases h : pyEq (n.net_id.getD .null) i
  · have hne : n = existing :=
      mem_unique_of_pairwise_map (f := fun n => n.net_id.getD .null) hpi hn hmem
        (by simpa [hexid] using h)
    subst hne
    simp [h]
  · have hne : ¬(n = existing) := by
      rintro rfl
      exact absurd (by simp [hexid, pyEq_refl]) h
    simp [h, hne]

lemma map_replace_nameKeys {nets : List Network} {existing result : Network}
    (hkey : result.nameKey = existing.nameKey) :
    (nets.map fun n => if n = existing then result else n).map Network.nameKey =
      nets.map Network.nameKey := by
  rw [List.map_map]
  refine List.map_congr_left ?_
  intro n _
  by_cases h : n = existing <;> simp [h, hkey]

lemma map_replace_idKeys {nets : List Network} {existing result : Network}
    (hkey : result.net_id = existing.net_id) :
    (nets.map fun n => if n = existing then result else n).map
        (fun n => n.net_id.getD .null) =
      nets.map (fun n => n.net_id.getD .null) := by
  rw [List.map_map]
  refine List.map_congr_left ?_
  intro n _
  by_cases h : n = existing <;> simp [h, hkey]

lemma filter_map_replace {nets : List Network} {existing result : Network}
    (hkey : result.nameKey = existing.nameKey) (k : JVal) :
    (nets.map fun n => if n = existing then result else n).filter
        (fun n => pyEq n.nameKey k) =
      (nets.filter (fun n => pyEq n.nameKey k)).map
        (fun n => if n = existing then result else n) := by
  rw [List.filter_map]
  congr 1
  refine List.filter_congr ?_
  intro n _
  by_cases h : n = existing <;> simp [h, hkey]

lemma stateInv_create {st : ControllerState} {c : Network} {s : String}
    (hinv : stateInv st) (hname : c.name = some (.str s))
    (hfindnone : ∀ n ∈ st.nets, pyEq n.nameKey (JVal.str s) = false) :
    stateInv ⟨st.nets ++ [{c with net_id := some (.int (st.fresh : Int))}],
      st.fresh + 1⟩ := by
  obtain ⟨ha, hb, hc, hd, he⟩ := hinv
  refine ⟨?_, ?_, ?_, ?_, ?_⟩
  · intro n hn
    rcases List.mem_append.mp hn with hn' | hn'
    · exact ha n hn'
    · simp only [List.mem_singleton] at hn'
      subst hn'
      exact ⟨s, by simp [hname]⟩
  · intro n hn
    rcases List.mem_append.mp hn with hn' | hn'
    · exact hb n hn'
    · simp only [List.mem_singleton] at hn'
      subst hn'
      exact ⟨.int (st.fresh : Int), by simp⟩
  · rw [List.map_append, List.pairwise_append]
    refine ⟨hc, by simp, ?_⟩
    intro x hx y hy
    simp only [List.map_singleton, List.mem_singleton] at hy
    subst hy
    simp only [List.mem_map] at hx
    obtain ⟨n, hn, rfl⟩ := hx
    have : ({c with net_id := some (.int (st.fresh : Int))} : Network).nameKey
        = JVal.str s := by simp [Network.nameKey, hname]
    rw [this]
    exact hfindnone n hn
  · rw [List.map_append, List.pairwise_append]
    refine ⟨hd, by simp, ?_⟩
    intro x hx y hy
    simp only [List.map_singleton, List.mem_singleton] at hy
    subst hy
    simp only [List.mem_map] at hx
    obtain ⟨n, hn, rfl⟩ := hx
    simpa using he n hn st.fresh (le_refl _)
  · intro n hn k hk
    have hk' : st.fresh + 1 ≤ k := hk
    rcases List.mem_append.mp hn with hn' | hn'
    · exact he n hn' k (by omega)
    · simp only [List.mem_singleton] at hn'
      subst hn'
      simp only [Option.getD_some]
      have : ¬((st.fresh : Int) = (k : Int)) := by
        intro hc'
        omega
      simp [pyEq, JVal.toNum?, this]

lemma stateInv_update {st : ControllerState} {existing c : Network} {i : JVal}
    {s : String}
    (hinv : stateInv st) (hmem : existing ∈ st.nets)
    (hexid : existing.net_id = some i)
    (hexname : existing.nameKey = JVal.str s)
    (hcname : c.name = some (.str s)) (hcid : c.net_id = none) :
    stateInv ⟨st.nets.map fun n =>
      if n = existing then Network.merge existing c else n, st.fresh⟩ := by
  obtain ⟨ha, hb, hc, hd, he⟩ := hinv
  have hrid : (Network.merge existing c).net_id = existing.net_id := by
    simp [Network.merge, hcid]
  have hrname : (Network.merge existing c).nameKey = existing.nameKey := by
    have hmn : (Network.merge existing c).name = (c.name <|> existing.name) := rfl
    rw [Network.nameKey, hmn, hcname, hexname]
    rfl
  refine ⟨?_, ?_, ?_, ?_, ?_⟩
  · intro n hn
    simp only [List.mem_map] at hn
    obtain ⟨m, hm, rfl⟩ := hn
    by_cases h : m = existing
    · simp only [h, if_pos]
      exact ⟨s, by simp [Network.merge, hcname]⟩
    · simp only [h, if_false]
      exact ha m hm
  · intro n hn
    simp only [List.mem_map] at hn
    obtain ⟨m, hm, rfl⟩ := hn
    by_cases h : m = existing
    · simp only [h, if_pos]
      exact ⟨i, by rw [hrid]; exact hexid⟩
    · simp only [h, if_false]
      exact hb m hm
  · rw [map_replace_nameKeys hrname]
    exact hc
  · rw [map_replace_idKeys hrid]
    exact hd
  · intro n hn k hk
    simp only [List.mem_map] at hn
    obtain ⟨m, hm, rfl⟩ := hn
    by_cases h : m = existing
    · simp only [h, if_pos, hrid]
      exact he existing hmem k hk
    · simp only [h, if_false]
      exact he m hm k hk

lemma countByName_append (l1 l2 : List Network) (k : JVal) :
    countByName (l1 ++ l2) k = countByName l1 k + countByName l2 k := by
  simp [countByName, List.filter_append]

lemma applyIdealLoop_spec :
    ∀ (cs : List Network) (st : ControllerState) (cache : PyDict Network)
      (created updated : List Network) (failures : List Failure),
      (∀ c ∈ cs, goodConfig c) →
      (cs.map Network.nameKey).Pairwise (fun x y => pyEq x y = false) →
      stateInv st →
      cache = st.nets.map (fun n => (n.nameKey, n)) →
      ∃ created' updated' st',
        applyIdealLoop cs created updated failures cache st =
          .ok (created ++ created', updated ++ updated', failures, st') ∧
        stateInv st' ∧
        (∀ c ∈ cs, ∃ m ∈ st'.nets, pyEq m.nameKey c.nameKey = true ∧
          normalize_network_for_comparison m =
            normalize_network_for_comparison c) ∧
        (∀ k, (∀ c ∈ cs, pyEq c.nameKey k = false) →
          st'.nets.filter (fun n => pyEq n.nameKey k) =
            st.nets.filter (fun n => pyEq n.nameKey k)) ∧
        (∀ k, countByName st'.nets k = countByName st.nets k ∨
          (countByName st.nets k = 0 ∧ countByName st'.nets k = 1)) := by
  intro cs
  induction cs with
  | nil =>
    intro st cache created updated failures _ _ hinv _
    exact ⟨[], [], st, by simp [applyIdealLoop], hinv, by simp,
      fun k _ => rfl, fun k => Or.inl rfl⟩
  | cons c cs ih =>
    intro st cache created updated failures hgood hpw hinv hcache
    have hgc := hgood c (List.mem_cons_self _ _)
    have hgcs : ∀ x ∈ cs, goodConfig x :=
      fun x hx => hgood x (List.mem_cons_of_mem _ hx)
    obtain ⟨s, hname, hsne⟩ := hgc.1
    have hgcid : c.net_id = none := hgc.2.2.2.2.2.2
    have hckey : c.nameKey = JVal.str s := by simp [Network.nameKey, hname]
    simp only [List.map_cons, List.pairwise_cons] at hpw
    obtain ⟨hpwhead, hpwtail⟩ := hpw
    obtain ⟨hinv_names, hinv_ids, hinv_pn, hinv_pi, hinv_fresh⟩ := hinv
    have hreq : requireName c = .ok (JVal.str s) := by simp [requireName, hname]
    have hget : dictGet? cache (JVal.str s) =
        st.nets.find? (fun n => pyEq n.nameKey (JVal.str s)) := by
      rw [hcache, dictGet?_map_pairs]
    cases hfind : st.nets.find? (fun n => pyEq n.nameKey (JVal.str s)) with
    | none =>
      -- ### create path
      have hgetnone : dictGet? cache (JVal.str s) = none := by rw [hget, hfind]
      have hfindnone : ∀ n ∈ st.nets, pyEq n.nameKey (JVal.str s) = false := by
        intro n hn
        simpa using List.find?_eq_none.mp hfind n hn
      set stored : Network := { c with net_id := some (.int (st.fresh : Int)) }
        with hstored
      have hsname : stored.name = some (.str s) := by simp [hstored, hname]
      have hskey : stored.nameKey = JVal.str s := by
        rw [Network.nameKey, hsname]
        rfl
      set st₂ : ControllerState := ⟨st.nets ++ [stored], st.fresh + 1⟩ with hst₂
      have hhelper : create_or_update_ideal st c = .ok (controllerCreate st c) := by
        unfold create_or_update_ideal
        simp [hname, JVal.truthy, hsne, hfind]
      have hstep : applyIdealLoop (c :: cs) created updated failures cache st =
          applyIdealLoop cs (created ++ [stored]) updated failures
            (dictSet cache (JVal.str s) stored) st₂ := by
        simp only [applyIdealLoop, hreq, Except.bind, bind, hgetnone, hhelper,
          controllerCreate]
      have hcache₂ : dictSet cache (JVal.str s) stored =
          st₂.nets.map (fun n => (n.nameKey, n)) := by
        rw [dictSet_append_of_none hgetnone, hcache, hst₂]
        simp [hskey]
      have hinv₂ : stateInv st₂ :=
        stateInv_create ⟨hinv_names, hinv_ids, hinv_pn, hinv_pi, hinv_fresh⟩
          hname hfindnone
      obtain ⟨created', updated', st', hloop, hinv', hnorm', hframe', hcount'⟩ :=
        ih st₂ _ (created ++ [stored]) updated failures hgcs hpwtail hinv₂
          hcache₂
      refine ⟨stored :: created', updated', st', ?_, hinv', ?_, ?_, ?_⟩
      · rw [hstep, hloop]
        simp [List.append_assoc]
      · intro c0 hc0
        rcases List.mem_cons.mp hc0 with rfl | hc0'
        · have hcsk : ∀ c' ∈ cs, pyEq c'.nameKey c0.nameKey = false := by
            intro c' hc'
            rw [pyEq_comm]
            exact hpwhead c'.nameKey (List.mem_map_of_mem _ hc')
          have hfr := hframe' c0.nameKey hcsk
          have hsmem : stored ∈ st₂.nets.filter
              (fun n => pyEq n.nameKey c0.nameKey) := by
            simp only [List.mem_filter]
            refine ⟨by simp [hst₂], ?_⟩
            rw [hskey, ← hckey]
            exact pyEq_refl _
          rw [← hfr] at hsmem
          have hh := List.mem_filter.mp hsmem
          exact ⟨stored, hh.1, hh.2, by rw [hstored]; exact normalize_set_id c0 _⟩
        · exact hnorm' c0 hc0'
      · intro k hks
        have h1 := hframe' k (fun c' hc' => hks c' (List.mem_cons_of_mem _ hc'))
        rw [h1, hst₂]
        simp only [List.filter_append]
        have hsk : pyEq stored.nameKey k = false := by
          rw [hskey, ← hckey]
          exact hks c (List.mem_cons_self _ _)
        simp [hsk]
      · intro k
        have hc2 : countByName st₂.nets k =
            countByName st.nets k + (if pyEq stored.nameKey k then 1 else 0) := by
          rw [hst₂]
          simp only [countByName_append]
          by_cases h : pyEq stored.nameKey k <;> simp [countByName, h]
        by_cases hpk : pyEq c.nameKey k
        · have hzero : countByName st.nets k = 0 := by
            rw [countByName, List.length_eq_zero, List.filter_eq_nil_iff]
            intro n hn hcon
            have : pyEq n.nameKey c.nameKey = true :=
              pyEq_trans hcon (pyEq_symm hpk)
            rw [hckey] at this
            exact absurd this (by simp [hfindnone n hn])
          have h1 : countByName st₂.nets k = 1 := by
            rw [hc2, hzero, hskey, ← hckey]
            simp [hpk]
          rcases hcount' k with h' | ⟨h0, _⟩
          · exact Or.inr ⟨hzero, by rw [h']; exact h1⟩
          · rw [h1] at h0
            simp at h0
        · have heq2 : countByName st₂.nets k = countByName st.nets k := by
            rw [hc2, hskey, ← hckey]
            simp [hpk]
          rcases hcount' k with h' | ⟨h0, h1'⟩
          · exact Or.inl (by rw [h', heq2])
          · exact Or.inr ⟨by rw [← heq2]; exact h0, h1'⟩
    | some existing =>
      -- ### update path
      have hgetsome : dictGet? cache (JVal.str s) = some existing := by
        rw [hget, hfind]
      have hexmem : existing ∈ st.nets := List.mem_of_find?_eq_some hfind
      have hexpy : pyEq existing.nameKey (JVal.str s) = true := by
        simpa using List.find?_some hfind
      have hexname : existing.nameKey = JVal.str s :=
        pyEq_str_iff.mp (pyEq_symm hexpy)
      obtain ⟨s', hexnm⟩ := hinv_names existing hexmem
      have hexfalsy : existing.falsy = false := network_falsy_of_name hexnm
      obtain ⟨i, hexid⟩ := hinv_ids existing hexmem
      set result := Network.merge existing c with hresult
      have hrepl : (st.nets.map fun n =>
          if pyEq (n.net_id.getD .null) i then result else n) =
            st.nets.map fun n => if n = existing then result else n :=
        update_replace_eq hinv_pi hexmem hexid result
      set st₂ : ControllerState :=
        ⟨st.nets.map fun n => if n = existing then result else n, st.fresh⟩
        with hst₂
      have hstep : applyIdealLoop (c :: cs) created updated failures cache st =
          applyIdealLoop cs created (updated ++ [result]) failures
            (dictSet cache (JVal.str s) result) st₂ := by
        simp only [applyIdealLoop, hreq, Except.bind, bind, hgetsome, hexfalsy,
          Bool.false_eq_true, if_false, hexid, controllerUpdate]
        rw [hst₂, ← hrepl]
      have hrname : result.nameKey = existing.nameKey := by
        have hmn : result.name = (c.name <|> existing.name) := rfl
        rw [Network.nameKey, hmn, hname, hexname]
        rfl
      have hrid : result.net_id = existing.net_id := by
        have hmn : result.net_id = (c.net_id <|> existing.net_id) := rfl
        rw [hmn, hgcid]
        rfl
      have hcache₂ : dictSet cache (JVal.str s) result =
          st₂.nets.map (fun n => (n.nameKey, n)) := by
        rw [hcache, dictSet_map_pairs_update hinv_pn hexmem hexname, hst₂]
        simp only [List.map_map]
        refine List.map_congr_left ?_
        intro n _
        by_cases h : n = existing <;>
          simp [h, Function.comp, hrname, hexname]
      have hinv₂ : stateInv st₂ := by
        rw [hst₂, hresult]
        exact stateInv_update
          ⟨hinv_names, hinv_ids, hinv_pn, hinv_pi, hinv_fresh⟩ hexmem hexid
          hexname hname hgcid
      have hcnt₂ : ∀ k, countByName st₂.nets k = countByName st.nets k := by
        intro k
        rw [hst₂]
        simp only [countByName]
        rw [filter_map_replace hrname k]
        simp
      have hfr₂ : ∀ k, pyEq c.nameKey k = false →
          st₂.nets.filter (fun n => pyEq n.nameKey k) =
            st.nets.filter (fun n => pyEq n.nameKey k) := by
        intro k hk
        rw [hst₂]
        rw [filter_map_replace hrname k]
        have hid' : ∀ n ∈ st.nets.filter (fun n => pyEq n.nameKey k),
            (if n = existing then result else n) = n := by
          intro n hnf
          have hnk := (List.mem_filter.mp hnf).2
          by_cases h : n = existing
          · subst h
            rw [hexname] at hnk
            rw [hckey] at hk
            exact absurd hnk (by simp [hk])
          · simp [h]
        rw [List.map_congr_left hid']
        simp
      obtain ⟨created', updated', st', hloop, hinv', hnorm', hframe', hcount'⟩ :=
        ih st₂ _ created (updated ++ [result]) failures hgcs hpwtail hinv₂
          hcache₂
      refine ⟨created', result :: updated', st', ?_, hinv', ?_, ?_, ?_⟩
      · rw [hstep, hloop]
        simp [List.append_assoc]
      · intro c0 hc0
        rcases List.mem_cons.mp hc0 with rfl | hc0'
        · have hcsk : ∀ c' ∈ cs, pyEq c'.nameKey c0.nameKey = false := by
            intro c' hc'
            rw [pyEq_comm]
            exact hpwhead c'.nameKey (List.mem_map_of_mem _ hc')
          have hfr := hframe' c0.nameKey hcsk
          have hsmem : result ∈ st₂.nets.filter
              (fun n => pyEq n.nameKey c0.nameKey) := by
            simp only [List.mem_filter]
            refine ⟨?_, ?_⟩
            · have hmm := List.mem_map_of_mem
                (fun n => if n = existing then result else n) hexmem
              simpa [hst₂] using hmm
            · rw [hrname, hexname, ← hckey]
              exact pyEq_refl _
          rw [← hfr] at hsmem
          have hh := List.mem_filter.mp hsmem
          exact ⟨result, hh.1, hh.2, normalize_merge_good hgc⟩
        · exact hnorm' c0 hc0'
      · intro k hks
        have h1 := hframe' k (fun c' hc' => hks c' (List.mem_cons_of_mem _ hc'))
        rw [h1]
        exact hfr₂ k (hks c (List.mem_cons_self _ _))
      · intro k
        rcases hcount' k with h' | ⟨h0, h1'⟩
        · exact Or.inl (by rw [h', hcnt₂ k])
        · exact Or.inr ⟨by rw [← hcnt₂ k]; exact h0, h1'⟩

/-! ### Claim C5 -/

/-- C5: for the input CIDR `"10.100.0.0/24"`, `cidr_to_gateway` returns
exactly `"10.100.0.1/24"` and `calculate_dhcp_range` (with default offsets)
returns exactly `("10.100.0.6", "10.100.0.254")`. -/
theorem c5_gateway_and_dhcp_range :
    cidr_to_gateway "10.100.0.0/24" = .ok "10.100.0.1/24" ∧
    calculate_dhcp_range "10.100.0.0/24" = .ok ("10.100.0.6", "10.100.0.254") :=
  ⟨by decide, by decide⟩

/-! ### Claim C6 -/

/-- C6: every CIDR that parses with prefix length 30, 31 or 32 makes
`calculate_dhcp_range` (with default offsets) raise the sizing `ValueError`
whose message names the offending CIDR; it never returns a pair. -/
theorem c6_small_subnet_rejected (cidr : String) (net plen : Nat)
    (hp : parseIPv4Network cidr = some (net, plen))
    (hplen : plen = 30 ∨ plen = 31 ∨ plen = 32) :
    calculate_dhcp_range cidr =
      .error (sizingMsg cidr ((2 : Int) ^ (32 - plen) - 2) 8) ∧
    ∃ s t, sizingMsg cidr ((2 : Int) ^ (32 - plen) - 2) 8 = s ++ cidr ++ t := by
  constructor
  · unfold calculate_dhcp_range
    rw [hp]
    have hlt : ((2 : Int) ^ (32 - plen) - 2) < 6 + 2 := by
      rcases hplen with h | h | h <;> subst h <;> norm_num
    simp only [hlt, if_pos]
    norm_num
  · refine ⟨"Subnet ", " too small for DHCP range (only " ++
      toString ((2 : Int) ^ (32 - plen) - 2) ++
      " usable IPs, need at least " ++ toString (8 : Int) ++ ")", ?_⟩
    simp [sizingMsg, String.append_assoc]

/-- C6 witness: the concrete CIDR `"10.0.0.0/30"` parses with prefix length
30 and is rejected with the sizing error. -/
theorem c6_small_subnet_rejected_witness :
    calculate_dhcp_range "10.0.0.0/30" =
      .error (sizingMsg "10.0.0.0/30" ((2 : Int) ^ (32 - 30) - 2) 8) ∧
    ∃ s t, sizingMsg "10.0.0.0/30" ((2 : Int) ^ (32 - 30) - 2) 8 =
      s ++ "10.0.0.0/30" ++ t :=
  c6_small_subnet_rejected "10.0.0.0/30" 167772160 30 (by decide) (Or.inl rfl)

/-! ### Claim C7 -/

/-- C7: `build_desired_state` does treat VLAN id 0 as present — the VLAN is
not skipped and yields a network with `vlan = 0` — but
`normalize_network_for_comparison` then maps `vlan = 0` to `None` (the
Python `network.get("vlan") or network.get("vlan_id")` fallback treats the
falsy 0 as missing), contradicting the spec's stated edge-case policy that
VLAN id 0 must not be treated as missing. -/
theorem c7_vlan_zero_falls_back_to_missing :
    build_desired_state
      { vlans := [⟨0, "lan"⟩], prefixes := [⟨"10.0.0.0/24", 0⟩] } =
      .ok [c7_network] ∧
    c7_network.vlan = some (.int 0) ∧
    (normalize_network_for_comparison c7_network).vlan = .null :=
  ⟨by decide, rfl, rfl⟩

/-! ### Claim C1 -/

/-- C1 counterexample: in the claimed scenario the `to_update` list is NOT
empty — the desired state's unspecified `dhcpd_start` normalizes to `None`,
which differs from the actual `"10.1.0.50"`, so the network is classified as
needing an update. -/
theorem c1_counterexample :
    (compute_diff [c1_desired] [c1_recorded] [c1_actual]).map
      (fun d => d.to_update.isEmpty) = .ok false := by
  decide

/-- C1 amended: in the scenario, drift contains exactly the network named
`"lan"` AND `to_update` also contains exactly `"lan"` — a field the desired
state does not specify participates in the desired-vs-actual comparison as
`None`, so the mismatch is reported both as drift and as an update. -/
theorem c1_amended_unspecified_field_compared :
    compute_diff [c1_desired] [c1_recorded] [c1_actual] =
      .ok { to_create := [],
            to_update := [⟨.str "lan",
              ⟨.str "lan", .int 10, .null, .bool true, .str "10.1.0.50", .null⟩,
              ⟨.str "lan", .int 10, .null, .bool true, .null, .null⟩⟩],
            to_delete := [],
            drift := [⟨.str "lan",
              ⟨.str "lan", .int 10, .null, .bool true, .str "10.1.0.6", .null⟩,
              ⟨.str "lan", .int 10, .null, .bool true, .str "10.1.0.50", .null⟩⟩],
            is_clean := false } := by
  decide

/-! ### Claim C2 -/

/-- C2 counterexample: an input whose diff has empty
`to_create`/`to_update`/`to_delete` but non-empty `drift` yields
`is_clean = true`, not `false` — the code computes
`is_clean = not (to_create or to_update or to_delete)`, ignoring drift. -/
theorem c2_counterexample :
    (compute_diff [c2_desired] [c2_recorded] [c2_actual]).map
      (fun d => (d.is_clean,
        d.to_create.isEmpty && d.to_update.isEmpty && d.to_delete.isEmpty,
        d.drift.isEmpty)) = .ok (true, true, false) := by
  decide

/-- C2 amended: for every input, `is_clean` is true iff the three lists
`to_create`, `to_update` and `to_delete` are empty; the `drift` list does
not enter the computation. -/
theorem c2_amended_is_clean_ignores_drift (desired recorded actual : List Network)
    (d : DiffResult) (h : compute_diff desired recorded actual = .ok d) :
    d.is_clean = true ↔
      (d.to_create = [] ∧ d.to_update = [] ∧ d.to_delete = []) := by
  rcases compute_diff_ok_iff.mp h with ⟨dict, td, _, _, rfl⟩
  simp [List.isEmpty_iff]

/-- C2 witness: the amended statement applied to the empty inputs. -/
theorem c2_amended_is_clean_ignores_drift_witness :
    compute_diff [] [] [] = .ok ⟨[], [], [], [], true⟩ ∧
    ((⟨[], [], [], [], true⟩ : DiffResult).is_clean = true ↔
      ((⟨[], [], [], [], true⟩ : DiffResult).to_create = [] ∧
       (⟨[], [], [], [], true⟩ : DiffResult).to_update = [] ∧
       (⟨[], [], [], [], true⟩ : DiffResult).to_delete = [])) :=
  ⟨by decide, c2_amended_is_clean_ignores_drift [] [] [] _ (by decide)⟩

end UnifiIaC

namespace UnifiIaC

/-! ### Claim C3 -/

/-- C3: with `fail_fast = false`, for a batch of three desired networks none
of which pre-exist on the controller, where the second create raises and the
first and third succeed, `apply_networks` returns a `current_state`
containing exactly the first and third results and a failures list
containing exactly one entry naming the second; the failed network never
appears in the snapshot. -/
theorem c3_partial_failure (client : Client) (n1 n2 n3 r1 r3 : Network)
    (v1 v2 v3 : JVal) (e : String)
    (hnet : client.networks = [])
    (h1 : n1.name = some v1) (h2 : n2.name = some v2) (h3 : n3.name = some v3)
    (h12 : pyEq v1 v2 = false) (h13 : pyEq v1 v3 = false)
    (hc1 : client.create n1 = .ok r1)
    (hc2 : client.create n2 = .error e)
    (hc3 : client.create n3 = .ok r3) :
    apply_networks client [n1, n2, n3] false =
      .ok { created := [r1, r3], updated := [], unchanged := [],
            failures := [⟨v2, n2.vlan.getD .null, e, n2⟩],
            current_state := [r1, r3] } := by
  unfold apply_networks buildCache buildCacheAux
  rw [hnet]
  simp only [applyLoop, applyAttempt, requireName, h1, h2, h3, dictGet?, dictSet,
    hc1, hc2, hc3, h12, h13, Except.bind, bind, Except.map, Except.pure, pure,
    Bool.false_eq_true, if_false]
  simp [Except.bind, bind, pure, Except.pure]

/-- C3 witness: the concrete three-network batch with the middle create
failing. -/
theorem c3_partial_failure_witness :
    apply_networks c3_client [c3_cfg_a, c3_cfg_b, c3_cfg_c] false =
      .ok { created := [c3_cfg_a, c3_cfg_c], updated := [], unchanged := [],
            failures := [⟨.str "net-b", .int 20, "boom", c3_cfg_b⟩],
            current_state := [c3_cfg_a, c3_cfg_c] } :=
  c3_partial_failure c3_client c3_cfg_a c3_cfg_b c3_cfg_c c3_cfg_a c3_cfg_c
    (.str "net-a") (.str "net-b") (.str "net-c") "boom" rfl rfl rfl rfl
    (by decide) (by decide) (by decide) (by decide) (by decide)

/-! ### Claim C10 -/

/-- The length bookkeeping of the `apply_networks` loop: on a successful
run every desired network lands in exactly one of `created`, `updated` or
`failures`. -/
lemma applyLoop_ok_lengths (client : Client) (ff : Bool) (rest : List Network) :
    ∀ (created updated : List Network) (failures : List Failure)
      (cache : PyDict Network) (out : List Network × List Network × List Failure),
      applyLoop client ff rest created updated failures cache = .ok out →
      out.1.length + out.2.1.length + out.2.2.length =
        rest.length + created.length + updated.length + failures.length := by
  induction rest with
  | nil =>
    intro created updated failures cache out h
    unfold applyLoop at h
    simp [Except.pure, pure] at h
    subst h
    simp
  | cons cfg rest ih =>
    intro created updated failures cache out h
    unfold applyLoop at h
    cases hn : requireName cfg with
    | error e => rw [hn] at h; simp [Except.bind, bind] at h
    | ok name =>
      rw [hn] at h
      simp only [Except.bind, bind] at h
      split at h
      · have := ih _ _ _ _ _ h
        simp at this ⊢
        omega
      · have := ih _ _ _ _ _ h
        simp at this ⊢
        omega
      · cases ff
        · simp only [Bool.false_eq_true, if_false] at h
          have := ih _ _ _ _ _ h
          simp at this ⊢
          omega
        · simp at h

/-- `applyAttempt` is unchanged when two caches agree on the looked-up
name. -/
lemma applyAttempt_congr {client : Client} {cache1 cache2 : PyDict Network}
    {v : JVal} {cfg : Network}
    (h : dictGet? cache1 v = dictGet? cache2 v) :
    applyAttempt client cache1 v cfg = applyAttempt client cache2 v cfg := by
  unfold applyAttempt
  rw [h]

/-- The `apply_networks` loop only ever appends to its three output lists. -/
lemma applyLoop_accum (client : Client) (ff : Bool) (rest : List Network) :
    ∀ created updated failures cache cr up fl,
      applyLoop client ff rest created updated failures cache = .ok (cr, up, fl) →
      ∃ cr' up' fl', cr = created ++ cr' ∧ up = updated ++ up' ∧
        fl = failures ++ fl' := by
  induction rest with
  | nil =>
    intro created updated failures cache cr up fl h
    unfold applyLoop at h
    simp only [Except.pure, pure, Except.ok.injEq, Prod.mk.injEq] at h
    obtain ⟨h1, h2, h3⟩ := h
    exact ⟨[], [], [], by rw [← h1]; simp, by rw [← h2]; simp,
      by rw [← h3]; simp⟩
  | cons cfg rest ih =>
    intro created updated failures cache cr up fl h
    unfold applyLoop at h
    cases hn : requireName cfg with
    | error e => rw [hn] at h; simp [Except.bind, bind] at h
    | ok name =>
      rw [hn] at h
      simp only [Except.bind, bind] at h
      split at h
      · obtain ⟨cr', up', fl', h1, h2, h3⟩ := ih _ _ _ _ _ _ _ h
        rename_i res _
        exact ⟨cr', res :: up', fl', h1, by simp [h2], h3⟩
      · obtain ⟨cr', up', fl', h1, h2, h3⟩ := ih _ _ _ _ _ _ _ h
        rename_i res _
        exact ⟨res :: cr', up', fl', by simp [h1], h2, h3⟩
      · cases ff
        · simp only [Bool.false_eq_true, if_false] at h
          obtain ⟨cr', up', fl', h1, h2, h3⟩ := ih _ _ _ _ _ _ _ h
          rename_i e _
          exact ⟨cr', up',
            ⟨name, cfg.vlan.getD .null, e, cfg⟩ :: fl', h1, h2, by simp [h3]⟩
        · simp at h

/-- Per-network routing of the `apply_networks` loop (with pairwise-distinct
desired names, so the fetch-time cache entry for each name is the one its
iteration sees): the result of the network's try-block lands in `updated`
when the update path was taken, in `created` when the create path was taken,
and as a failure entry when the call raised. -/
lemma applyLoop_routing (client : Client) (ff : Bool) (rest : List Network) :
    ∀ created updated failures cache cr up fl,
      applyLoop client ff rest created updated failures cache = .ok (cr, up, fl) →
      (rest.map Network.nameKey).Pairwise (fun x y => pyEq x y = false) →
      ∀ cfg ∈ rest, ∀ v, cfg.name = some v →
        (∀ res, applyAttempt client cache v cfg = .ok (true, res) → res ∈ up) ∧
        (∀ res, applyAttempt client cache v cfg = .ok (false, res) → res ∈ cr) ∧
        (∀ e, applyAttempt client cache v cfg = .error e →
          (⟨v, cfg.vlan.getD .null, e, cfg⟩ : Failure) ∈ fl) := by
  induction rest with
  | nil =>
    intro created updated failures cache cr up fl _ _ cfg hcfg
    simp at hcfg
  | cons c0 rest ih =>
    intro created updated failures cache cr up fl h hpw cfg hcfg v hv
    simp only [List.map_cons, List.pairwise_cons] at hpw
    obtain ⟨hpwhead, hpwtail⟩ := hpw
    unfold applyLoop at h
    cases hn : requireName c0 with
    | error e => rw [hn] at h; simp [Except.bind, bind] at h
    | ok name0 =>
      rw [hn] at h
      simp only [Except.bind, bind] at h
      have hc0name : c0.name = some name0 := by
        unfold requireName at hn
        cases hcn : c0.name <;> rw [hcn] at hn <;> simp at hn
        rw [hn]
      rcases List.mem_cons.mp hcfg with rfl | hcfg'
      · -- the head config itself
        have hveq : name0 = v := by
          rw [hv] at hc0name
          exact (Option.some_inj.mp hc0name).symm
        subst hveq
        split at h
        · rename_i res heq
          obtain ⟨cr', up', fl', h1, h2, h3⟩ :=
            applyLoop_accum client ff rest _ _ _ _ _ _ _ h
          refine ⟨?_, ?_, ?_⟩
          · intro res' hres'
            rw [heq] at hres'
            obtain rfl : res = res' := by simpa using hres'
            rw [h2]
            simp
          · intro res' hres'
            rw [heq] at hres'
            simp at hres'
          · intro e he
            rw [heq] at he
            simp at he
        · rename_i res heq
          obtain ⟨cr', up', fl', h1, h2, h3⟩ :=
            applyLoop_accum client ff rest _ _ _ _ _ _ _ h
          refine ⟨?_, ?_, ?_⟩
          · intro res' hres'
            rw [heq] at hres'
            simp at hres'
          · intro res' hres'
            rw [heq] at hres'
            obtain rfl : res = res' := by simpa using hres'
            rw [h1]
            simp
          · intro e he
            rw [heq] at he
            simp at he
        · rename_i e heq
          cases ff
          · simp only [Bool.false_eq_true, if_false] at h
            obtain ⟨cr', up', fl', h1, h2, h3⟩ :=
              applyLoop_accum client false rest _ _ _ _ _ _ _ h
            refine ⟨?_, ?_, ?_⟩
            · intro res' hres'
              rw [heq] at hres'
              simp at hres'
            · intro res' hres'
              rw [heq] at hres'
              simp at hres'
            · intro e' he'
              rw [heq] at he'
              obtain rfl : e = e' := by simpa using he'
              rw [h3]
              simp
          · simp at h
      · -- cfg in the tail
        have hkey : pyEq name0 v = false := by
          have h1 : c0.nameKey = name0 := by simp [Network.nameKey, hc0name]
          have h2 : cfg.nameKey = v := by simp [Network.nameKey, hv]
          rw [← h1, ← h2]
          exact hpwhead cfg.nameKey (List.mem_map_of_mem _ hcfg')
        split at h
        · rename_i res _
          have hcongr : dictGet? (dictSet cache name0 res) v = dictGet? cache v := by
            rw [dictGet?_dictSet]
            simp [hkey]
          have := ih _ _ _ _ _ _ _ h hpwtail cfg hcfg' v hv
          rwa [applyAttempt_congr hcongr] at this
        · rename_i res _
          have hcongr : dictGet? (dictSet cache name0 res) v = dictGet? cache v := by
            rw [dictGet?_dictSet]
            simp [hkey]
          have := ih _ _ _ _ _ _ _ h hpwtail cfg hcfg' v hv
          rwa [applyAttempt_congr hcongr] at this
        · cases ff
          · simp only [Bool.false_eq_true, if_false] at h
            exact ih _ _ _ _ _ _ _ h hpwtail cfg hcfg' v hv
          · simp at h

/-- C10: on every successful `apply_networks` run the `unchanged` list is
empty — no desired network is ever classified as unchanged — and
`current_state` equals `created ++ updated`.  Every desired network lands
in exactly one of `created`, `updated` or `failures`, routed as the claim
says: a truthy same-name entry in the one-time controller fetch makes the
loop issue `client.update` on the merged config — unconditionally, stated
for every existing network including one already equal to the desired
config — and its result lands in `updated`; a miss issues `client.create`
and the result lands in `created`; a raised call lands in `failures`. -/
theorem c10_always_update_never_unchanged (client : Client)
    (desired : List Network) (ff : Bool) (r : ApplyResult)
    (h : apply_networks client desired ff = .ok r) :
    r.unchanged = [] ∧ r.current_state = r.created ++ r.updated ∧
    r.created.length + r.updated.length + r.failures.length = desired.length ∧
    (∀ (cache0 : PyDict Network) (v : JVal) (cfg ex : Network) (nid : JVal),
      dictGet? cache0 v = some ex → ex.falsy = false → ex.net_id = some nid →
      applyAttempt client cache0 v cfg =
        (client.update nid (Network.merge ex cfg)).map ((true, ·))) ∧
    (∀ (cache0 : PyDict Network) (v : JVal) (cfg : Network),
      dictGet? cache0 v = none →
      applyAttempt client cache0 v cfg = (client.create cfg).map ((false, ·))) ∧
    ((desired.map Network.nameKey).Pairwise (fun x y => pyEq x y = false) →
      ∀ cache0, buildCache client.networks = .ok cache0 →
      ∀ cfg ∈ desired, ∀ v, cfg.name = some v →
        (∀ res, applyAttempt client cache0 v cfg = .ok (true, res) →
          res ∈ r.updated) ∧
        (∀ res, applyAttempt client cache0 v cfg = .ok (false, res) →
          res ∈ r.created) ∧
        (∀ e, applyAttempt client cache0 v cfg = .error e →
          (⟨v, cfg.vlan.getD .null, e, cfg⟩ : Failure) ∈ r.failures)) := by
  unfold apply_networks at h
  cases hb : buildCache client.networks with
  | error e => rw [hb] at h; simp [Except.bind, bind] at h
  | ok cache =>
    rw [hb] at h
    simp only [Except.bind, bind] at h
    cases hl : applyLoop client ff desired [] [] [] cache with
    | error e => rw [hl] at h; simp at h
    | ok out =>
      rw [hl] at h
      obtain ⟨cr, up, fl⟩ := out
      simp [pure, Except.pure] at h
      subst h
      refine ⟨rfl, by simp, ?_, ?_, ?_, ?_⟩
      · have := applyLoop_ok_lengths client ff desired [] [] [] cache
          (cr, up, fl) hl
        simp at this
        simpa using this
      · intro cache0 v cfg ex nid hget hfalsy hid
        unfold applyAttempt
        rw [hget]
        simp [hfalsy, hid]
      · intro cache0 v cfg hget
        unfold applyAttempt
        rw [hget]
      · intro hdn cache0 hcache0 cfg hcfg v hv
        have hceq : cache0 = cache := (Except.ok.inj hcache0).symm
        subst hceq
        exact applyLoop_routing client ff desired [] [] [] cache0 cr up fl hl
          hdn cfg hcfg v hv

/-- C10 witness: one fresh network, applied successfully. -/
theorem c10_always_update_never_unchanged_witness :
    c10_result.unchanged = [] ∧
    c10_result.current_state = c10_result.created ++ c10_result.updated ∧
    c10_result.created.length + c10_result.updated.length +
      c10_result.failures.length = [c10_cfg].length ∧
    (∀ (cache0 : PyDict Network) (v : JVal) (cfg ex : Network) (nid : JVal),
      dictGet? cache0 v = some ex → ex.falsy = false → ex.net_id = some nid →
      applyAttempt c10_client cache0 v cfg =
        (c10_client.update nid (Network.merge ex cfg)).map ((true, ·))) ∧
    (∀ (cache0 : PyDict Network) (v : JVal) (cfg : Network),
      dictGet? cache0 v = none →
      applyAttempt c10_client cache0 v cfg =
        (c10_client.create cfg).map ((false, ·))) ∧
    ((([c10_cfg] : List Network).map Network.nameKey).Pairwise
        (fun x y => pyEq x y = false) →
      ∀ cache0, buildCache c10_client.networks = .ok cache0 →
      ∀ cfg ∈ ([c10_cfg] : List Network), ∀ v, cfg.name = some v →
        (∀ res, applyAttempt c10_client cache0 v cfg = .ok (true, res) →
          res ∈ c10_result.updated) ∧
        (∀ res, applyAttempt c10_client cache0 v cfg = .ok (false, res) →
          res ∈ c10_result.created) ∧
        (∀ e, applyAttempt c10_client cache0 v cfg = .error e →
          (⟨v, cfg.vlan.getD .null, e, cfg⟩ : Failure) ∈ c10_result.failures)) :=
  c10_always_update_never_unchanged c10_client [c10_cfg] false c10_result
    (by decide)

end UnifiIaC

namespace UnifiIaC

/-! ### Claim C8 -/

/-- C8: every actual network whose name is not a desired name is placed in
`to_delete` (up to name identity) iff its name is a string starting with
`"test-"`; any other extra actual network appears, by name, in none of the
four output lists. -/
theorem c8_extra_network_delete_guard (desired recorded actual : List Network) (d : DiffResult)
    (h : compute_diff desired recorded actual = .ok d)
    (net : Network) (hmem : net ∈ actual)
    (habs : ∀ dn ∈ desired, pyEq net.nameKey dn.nameKey = false) :
    ((∃ m ∈ d.to_delete, pyEq m.nameKey net.nameKey = true) ↔
      ∃ s, net.nameKey = JVal.str s ∧
        List.isPrefixOf "test-".data s.data = true) ∧
    (∀ m ∈ d.to_create, pyEq m.nameKey net.nameKey = false) ∧
    (∀ u ∈ d.to_update, pyEq u.name net.nameKey = false) ∧
    (∀ dr ∈ d.drift, pyEq dr.name net.nameKey = false) := by
  rcases compute_diff_ok_iff.mp h with ⟨dict, td, hdict, hdel, rfl⟩
  obtain ⟨rfl, hnames⟩ := buildDesiredDict_ok hdict
  have hD := @mem_buildDictByName desired
  have hA := @mem_buildDictByName actual
  -- no binding of the desired dict has a key pyEq to net's name
  have hkeyD : ∀ kv ∈ buildDictByName desired, pyEq kv.1 net.nameKey = false := by
    intro kv hkv
    by_contra hc
    rw [Bool.not_eq_false] at hc
    obtain ⟨h1, h2⟩ := hD kv hkv
    have : pyEq net.nameKey kv.2.nameKey = true :=
      pyEq_trans (pyEq_symm hc) h1
    exact absurd this (by simp [habs kv.2 h2])
  have hdelete : td = List.filterMap (deleteOf (buildDictByName desired))
      (buildDictByName actual) := by
    simpa using foldlM_deleteStep_ok _ _ [] td hdel
  rw [foldl_diffStep]
  simp only [List.nil_append]
  refine ⟨?_, ?_, ?_, ?_⟩
  · -- to_delete characterization
    constructor
    · rintro ⟨m, hmm, hpy⟩
      rw [hdelete] at hmm
      rw [List.mem_filterMap] at hmm
      obtain ⟨kv, hkv, hsome⟩ := hmm
      obtain ⟨rfl, hmemD, s, hks, hpre⟩ := deleteOf_some_elim hsome
      obtain ⟨hslot, _⟩ := hA kv hkv
      -- kv.1 = .str s and pyEq kv.1 net.nameKey
      have h1 : pyEq kv.1 net.nameKey = true := pyEq_trans hslot hpy
      rw [hks] at h1
      exact ⟨s, pyEq_str_iff.mp h1, hpre⟩
    · rintro ⟨s, hns, hpre⟩
      -- net is in actual, so the by-name dict has a binding for its name
      have hmemA : dictMem (buildDictByName actual) net.nameKey = true :=
        (dictMem_buildDictByName actual net.nameKey).mpr
          ⟨net, hmem, pyEq_refl _⟩
      rw [dictMem, Option.isSome_iff_exists] at hmemA
      obtain ⟨w, hw⟩ := hmemA
      obtain ⟨k', hk'mem, hk'eq⟩ := dictGet?_some_mem hw
      -- the slot key is not a desired name
      have hmemD : dictMem (buildDictByName desired) k' = false := by
        by_contra hc
        rw [Bool.not_eq_false, dictMem_buildDictByName] at hc
        obtain ⟨dn, hdn, hdneq⟩ := hc
        have : pyEq net.nameKey dn.nameKey = true :=
          pyEq_symm (pyEq_trans hdneq hk'eq)
        exact absurd this (by simp [habs dn hdn])
      have hk's : k' = JVal.str s := by
        rw [hns] at hk'eq
        exact pyEq_str_iff.mp (pyEq_symm hk'eq)
      refine ⟨w, ?_, ?_⟩
      · rw [hdelete, List.mem_filterMap]
        exact ⟨(k', w), hk'mem,
          deleteOf_eq_some hmemD (by simpa using hk's) hpre⟩
      · obtain ⟨hslot, _⟩ := hA (k', w) hk'mem
        exact pyEq_trans (pyEq_symm hslot) hk'eq
  · intro m hm'
    rw [List.mem_filterMap] at hm'
    obtain ⟨kv, hkv, hsome⟩ := hm'
    obtain rfl := createOf_some hsome
    obtain ⟨hslot, _⟩ := hD kv hkv
    by_contra hc
    rw [Bool.not_eq_false] at hc
    exact absurd (pyEq_trans hslot hc) (by simp [hkeyD kv hkv])
  · intro u hu
    rw [List.mem_filterMap] at hu
    obtain ⟨kv, hkv, hsome⟩ := hu
    rw [updateOf_some_name hsome]
    exact hkeyD kv hkv
  · intro dr hdr
    rw [List.mem_filterMap] at hdr
    obtain ⟨kv, hkv, hsome⟩ := hdr
    rw [driftOf_some_name hsome]
    exact hkeyD kv hkv

/-- C8 witness: one extra actual network named `"test-stale"`, which is a
delete candidate, applied to the theorem at the computed diff. -/
theorem c8_extra_network_delete_guard_witness :
    ((∃ m ∈ (⟨[], [], [c8_actual_net], [], false⟩ : DiffResult).to_delete,
        pyEq m.nameKey c8_actual_net.nameKey = true) ↔
      ∃ s, c8_actual_net.nameKey = JVal.str s ∧
        List.isPrefixOf "test-".data s.data = true) ∧
    (∀ m ∈ (⟨[], [], [c8_actual_net], [], false⟩ : DiffResult).to_create,
      pyEq m.nameKey c8_actual_net.nameKey = false) ∧
    (∀ u ∈ (⟨[], [], [c8_actual_net], [], false⟩ : DiffResult).to_update,
      pyEq u.name c8_actual_net.nameKey = false) ∧
    (∀ dr ∈ (⟨[], [], [c8_actual_net], [], false⟩ : DiffResult).drift,
      pyEq dr.name c8_actual_net.nameKey = false) :=
  c8_extra_network_delete_guard [] [] [c8_actual_net]
    ⟨[], [], [c8_actual_net], [], false⟩ (by decide) c8_actual_net
    (by simp) (by simp)

/-! ### Claim C9 -/

/-- C9 counterexample: with desired vlan 10, recorded vlan 20 and actual
vlan 30 for the same name, the network named `"lan"` appears in BOTH
`to_update` and `drift` of the same invocation, so the four lists are not
pairwise disjoint. -/
theorem c9_counterexample :
    (compute_diff [{ name := some (.str "lan"), vlan := some (.int 10) }]
        [{ name := some (.str "lan"), vlan := some (.int 20) }]
        [{ name := some (.str "lan"), vlan := some (.int 30) }]).map
      (fun d => (d.to_update.map UpdateEntry.name, d.drift.map DriftEntry.name))
      = .ok ([.str "lan"], [.str "lan"]) := by
  decide

/-- C9 amended: for every invocation, `to_create`, `to_update` and
`to_delete` are pairwise disjoint by name, and `drift` is disjoint from
`to_create` and from `to_delete`; only `to_update` and `drift` may share a
name (a network can both need updating and have drifted). -/
theorem c9_amended_disjoint_except_update_drift (desired recorded actual : List Network)
    (d : DiffResult) (h : compute_diff desired recorded actual = .ok d) :
    (∀ m ∈ d.to_create, ∀ u ∈ d.to_update, pyEq m.nameKey u.name = false) ∧
    (∀ m ∈ d.to_create, ∀ dr ∈ d.drift, pyEq m.nameKey dr.name = false) ∧
    (∀ m ∈ d.to_create, ∀ n ∈ d.to_delete, pyEq m.nameKey n.nameKey = false) ∧
    (∀ u ∈ d.to_update, ∀ n ∈ d.to_delete, pyEq u.name n.nameKey = false) ∧
    (∀ dr ∈ d.drift, ∀ n ∈ d.to_delete, pyEq dr.name n.nameKey = false) := by
  rcases compute_diff_ok_iff.mp h with ⟨dict, td, hdict, hdel, rfl⟩
  obtain ⟨rfl, hnames⟩ := buildDesiredDict_ok hdict
  have hD := @mem_buildDictByName desired
  have hA := @mem_buildDictByName actual
  have hpairD : (dictKeys (buildDictByName desired)).Pairwise
      (fun x y => pyEq x y = false) := by
    rw [buildDictByName]
    exact dictKeys_pairwise_dictOfList _
  have hdelete : td = List.filterMap (deleteOf (buildDictByName desired))
      (buildDictByName actual) := by
    simpa using foldlM_deleteStep_ok _ _ [] td hdel
  rw [foldl_diffStep]
  simp only [List.nil_append]
  -- a delete entry's name is never pyEq to a desired-dict binding's key
  have hdel_not : ∀ kv ∈ buildDictByName desired, ∀ n ∈ td,
      pyEq kv.1 n.nameKey = false := by
    intro kv hkv n hn
    rw [hdelete, List.mem_filterMap] at hn
    obtain ⟨kvA, hkvA, hsome⟩ := hn
    obtain ⟨rfl, hmemD, s, hks, hpre⟩ := deleteOf_some_elim hsome
    obtain ⟨hslotA, _⟩ := hA kvA hkvA
    by_contra hc
    rw [Bool.not_eq_false] at hc
    have : pyEq kv.1 kvA.1 = true :=
      pyEq_trans hc (pyEq_symm hslotA)
    have hmm : dictMem (buildDictByName desired) kvA.1 = true := by
      cases hg : dictGet? (buildDictByName desired) kvA.1 with
      | none =>
        exact absurd ((dictGet?_eq_none_iff _ _).mp hg kv hkv) (by simp [this])
      | some w => simp [dictMem, hg]
    rw [hmm] at hmemD
    exact absurd hmemD (by simp)
  refine ⟨?_, ?_, ?_, ?_, ?_⟩
  · -- create vs update
    intro m hm u hu
    rw [List.mem_filterMap] at hm hu
    obtain ⟨kv, hkv, hsm⟩ := hm
    obtain ⟨kv', hkv', hsu⟩ := hu
    obtain rfl := createOf_some hsm
    obtain ⟨hslot, _⟩ := hD kv hkv
    rw [updateOf_some_name hsu]
    by_contra hc
    rw [Bool.not_eq_false] at hc
    have : pyEq kv.1 kv'.1 = true :=
      pyEq_trans hslot (pyEq_symm (pyEq_trans (pyEq_symm hc) (pyEq_refl _)))
    obtain rfl := pairwise_key_eq hpairD hkv hkv' this
    rw [updateOf_eq_none_of_createOf hsm] at hsu
    exact absurd hsu (by simp)
  · -- create vs drift
    intro m hm dr hdr
    rw [List.mem_filterMap] at hm hdr
    obtain ⟨kv, hkv, hsm⟩ := hm
    obtain ⟨kv', hkv', hsd⟩ := hdr
    obtain rfl := createOf_some hsm
    obtain ⟨hslot, _⟩ := hD kv hkv
    rw [driftOf_some_name hsd]
    by_contra hc
    rw [Bool.not_eq_false] at hc
    have : pyEq kv.1 kv'.1 = true := pyEq_trans hslot hc
    obtain rfl := pairwise_key_eq hpairD hkv hkv' this
    rw [driftOf_eq_none_of_createOf hsm] at hsd
    exact absurd hsd (by simp)
  · -- create vs delete
    intro m hm n hn
    rw [List.mem_filterMap] at hm
    obtain ⟨kv, hkv, hsm⟩ := hm
    obtain rfl := createOf_some hsm
    obtain ⟨hslot, _⟩ := hD kv hkv
    by_contra hc
    rw [Bool.not_eq_false] at hc
    exact absurd (pyEq_trans hslot hc) (by simp [hdel_not kv hkv n hn])
  · -- update vs delete
    intro u hu n hn
    rw [List.mem_filterMap] at hu
    obtain ⟨kv, hkv, hsu⟩ := hu
    rw [updateOf_some_name hsu]
    exact hdel_not kv hkv n hn
  · -- drift vs delete
    intro dr hdr n hn
    rw [List.mem_filterMap] at hdr
    obtain ⟨kv, hkv, hsd⟩ := hdr
    rw [driftOf_some_name hsd]
    exact hdel_not kv hkv n hn

/-- C9 witness: a single fresh desired network, applied to the amended
theorem at the computed diff. -/
theorem c9_amended_disjoint_except_update_drift_witness :
    (∀ m ∈ (⟨[c9w_net], [], [], [], false⟩ : DiffResult).to_create,
      ∀ u ∈ (⟨[c9w_net], [], [], [], false⟩ : DiffResult).to_update,
        pyEq m.nameKey u.name = false) ∧
    (∀ m ∈ (⟨[c9w_net], [], [], [], false⟩ : DiffResult).to_create,
      ∀ dr ∈ (⟨[c9w_net], [], [], [], false⟩ : DiffResult).drift,
        pyEq m.nameKey dr.name = false) ∧
    (∀ m ∈ (⟨[c9w_net], [], [], [], false⟩ : DiffResult).to_create,
      ∀ n ∈ (⟨[c9w_net], [], [], [], false⟩ : DiffResult).to_delete,
        pyEq m.nameKey n.nameKey = false) ∧
    (∀ u ∈ (⟨[c9w_net], [], [], [], false⟩ : DiffResult).to_update,
      ∀ n ∈ (⟨[c9w_net], [], [], [], false⟩ : DiffResult).to_delete,
        pyEq u.name n.nameKey = false) ∧
    (∀ dr ∈ (⟨[c9w_net], [], [], [], false⟩ : DiffResult).drift,
      ∀ n ∈ (⟨[c9w_net], [], [], [], false⟩ : DiffResult).to_delete,
        pyEq dr.name n.nameKey = false) :=
  c9_amended_disjoint_except_update_drift [c9w_net] [] []
    ⟨[c9w_net], [], [], [], false⟩ (by decide)

end UnifiIaC

namespace UnifiIaC

/-! ### Claim C4 -/

/-- C4 counterexample: for the desired network `{name:"x"}` (which specifies
no managed fields) against a controller already holding `x` with vlan 7, the
first apply succeeds with no failures, yet the second run's implicit plan
still classifies `x` as `to_update` (the unspecified desired vlan normalizes
to `None`, which differs from the live 7) — so idempotence does not hold for
every desired-state list. -/
theorem c4_counterexample :
    applyIdeal ⟨[c4cx_existing], 0⟩ [c4cx_desired] =
      .ok (⟨[], [c4cx_merged], [], [], [c4cx_merged]⟩, ⟨[c4cx_merged], 0⟩) ∧
    (compute_diff [c4cx_desired] [] [c4cx_merged]).map
      (fun d => d.to_update.isEmpty) = .ok false :=
  ⟨by decide, by decide⟩

end UnifiIaC

namespace UnifiIaC

/-- C4 amended: for every desired-state list whose networks are
builder-shaped (string name, truthy vlan and ip_subnet, the three DHCP keys
present, no controller id) with pairwise-distinct names, run against a
well-formed controller (string names, ids, both pairwise distinct): a first
apply succeeds with no failures, the second run's implicit plan
(`compute_diff` against the post-apply controller state) has empty
`to_create` and `to_update`, and a second apply leaves the live network
count of every name unchanged. -/
theorem c4_amended_idempotent (init : List Network) (fresh0 : Nat)
    (desired recorded : List Network)
    (hgood : ∀ c ∈ desired, goodConfig c)
    (hdn : (desired.map Network.nameKey).Pairwise (fun x y => pyEq x y = false))
    (hinv : stateInv ⟨init, fresh0⟩) :
    ∃ r1 st1 d r2 st2,
      applyIdeal ⟨init, fresh0⟩ desired = .ok (r1, st1) ∧ r1.failures = [] ∧
      compute_diff desired recorded st1.nets = .ok d ∧
      d.to_create = [] ∧ d.to_update = [] ∧
      applyIdeal st1 desired = .ok (r2, st2) ∧ r2.failures = [] ∧
      (∀ k, countByName st2.nets k = countByName st1.nets k) := by
  -- first apply
  have hcache0 : buildCache init = .ok (buildDictByName init) := by
    refine buildCache_total ?_
    intro n hn
    obtain ⟨s, hs⟩ := hinv.1 n hn
    simp [hs]
  have hdict0 : buildDictByName init =
      init.map (fun n => (n.nameKey, n)) := by
    rw [buildDictByName]
    refine dictOfList_eq_self ?_
    have : (init.map (fun n => (n.nameKey, n))).map Prod.fst =
        init.map Network.nameKey := by simp
    rw [this]
    exact hinv.2.2.1
  obtain ⟨created1, updated1, st1, hloop1, hinv1, hnorm1, hframe1, hcount1⟩ :=
    applyIdealLoop_spec desired ⟨init, fresh0⟩ (buildDictByName init) [] [] []
      hgood hdn hinv (by rw [hdict0])
  have happly1 : applyIdeal ⟨init, fresh0⟩ desired =
      .ok ({ created := created1, updated := updated1, unchanged := [],
             failures := [], current_state := created1 ++ updated1 ++ [] },
           st1) := by
    rw [applyIdeal]
    simp only [hcache0, Except.bind, bind]
    rw [hloop1]
    simp [pure, Except.pure]
  -- the plan after the first apply is clean for create/update
  have hnames1 : ∀ n ∈ st1.nets, n.name.isSome := by
    intro n hn
    obtain ⟨s, hs⟩ := hinv1.1 n hn
    simp [hs]
  have hnamesd : ∀ n ∈ desired, n.name.isSome := by
    intro n hn
    obtain ⟨s, hs, _⟩ := (hgood n hn).1
    simp [hs]
  have hdictd : buildDesiredDict desired = .ok (buildDictByName desired) :=
    buildDesiredDict_total hnamesd
  have hdictd_eq : buildDictByName desired =
      desired.map (fun n => (n.nameKey, n)) := by
    rw [buildDictByName]
    refine dictOfList_eq_self ?_
    have h' : (desired.map (fun n => (n.nameKey, n))).map Prod.fst =
        desired.map Network.nameKey := by simp
    rw [h']
    exact hdn
  have hdicta_eq : buildDictByName st1.nets =
      st1.nets.map (fun n => (n.nameKey, n)) := by
    rw [buildDictByName]
    refine dictOfList_eq_self ?_
    have h' : (st1.nets.map (fun n => (n.nameKey, n))).map Prod.fst =
        st1.nets.map Network.nameKey := by simp
    rw [h']
    exact hinv1.2.2.1
  -- for every desired config, the live lookup finds a normalized-equal net
  have hlive : ∀ c ∈ desired,
      ∃ m, st1.nets.find? (fun n => pyEq n.nameKey c.nameKey) = some m ∧
        normalize_network_for_comparison m =
          normalize_network_for_comparison c ∧ m.falsy = false := by
    intro c hc
    obtain ⟨m, hmmem, hmpy, hmnorm⟩ := hnorm1 c hc
    have hsome : (st1.nets.find? (fun n => pyEq n.nameKey c.nameKey)).isSome := by
      rw [List.find?_isSome]
      exact ⟨m, hmmem, hmpy⟩
    obtain ⟨m', hm'⟩ := Option.isSome_iff_exists.mp hsome
    have hm'mem : m' ∈ st1.nets := List.mem_of_find?_eq_some hm'
    have hm'py : pyEq m'.nameKey c.nameKey = true := by
      simpa using List.find?_some hm'
    have : m' = m :=
      mem_unique_of_pairwise_map (f := Network.nameKey) hinv1.2.2.1 hm'mem
        hmmem (pyEq_trans hm'py (pyEq_symm hmpy))
    subst this
    obtain ⟨s, hs⟩ := hinv1.1 m' hm'mem
    exact ⟨m', hm', hmnorm, network_falsy_of_name hs⟩
  -- the create/update folds produce nothing
  have hnocreate : ∀ kv ∈ desired.map (fun n => (n.nameKey, n)),
      createOf (buildDictByName st1.nets) kv = none := by
    intro kv hkv
    simp only [List.mem_map] at hkv
    obtain ⟨c, hc, rfl⟩ := hkv
    obtain ⟨m, hm, _, hmf⟩ := hlive c hc
    rw [createOf, hdicta_eq, dictGet?_map_pairs]
    simp only [hm, hmf]
    simp
  have hnoupdate : ∀ kv ∈ desired.map (fun n => (n.nameKey, n)),
      updateOf (buildDictByName st1.nets) kv = none := by
    intro kv hkv
    simp only [List.mem_map] at hkv
    obtain ⟨c, hc, rfl⟩ := hkv
    obtain ⟨m, hm, hmn, hmf⟩ := hlive c hc
    rw [updateOf, hdicta_eq, dictGet?_map_pairs]
    simp only [hm, hmf]
    rw [hmn, networks_differ_self]
    simp
  have hdelex : ∃ td, List.foldlM (deleteStep (buildDictByName desired)) []
      (buildDictByName st1.nets) = .ok td := by
    refine foldlM_deleteStep_total ?_ []
    intro kv hkv
    rw [hdicta_eq] at hkv
    simp only [List.mem_map] at hkv
    obtain ⟨n, hn, rfl⟩ := hkv
    obtain ⟨s, hs⟩ := hinv1.1 n hn
    exact ⟨s, by simp [Network.nameKey, hs]⟩
  obtain ⟨td, htd⟩ := hdelex
  have hfold : (buildDictByName desired).foldl
      (diffStep (buildDictByName recorded) (buildDictByName st1.nets))
      ([], [], []) =
      ([], [],
       (desired.map (fun n => (n.nameKey, n))).filterMap
         (driftOf (buildDictByName recorded) (buildDictByName st1.nets))) := by
    rw [hdictd_eq, foldl_diffStep]
    have h1 : (desired.map (fun n => (n.nameKey, n))).filterMap
        (createOf (buildDictByName st1.nets)) = [] := by
      rw [List.filterMap_eq_nil_iff]
      exact hnocreate
    have h2 : (desired.map (fun n => (n.nameKey, n))).filterMap
        (updateOf (buildDictByName st1.nets)) = [] := by
      rw [List.filterMap_eq_nil_iff]
      exact hnoupdate
    simp [h1, h2]
  have hdiff : compute_diff desired recorded st1.nets =
      .ok { to_create := [], to_update := [], to_delete := td,
            drift := (desired.map (fun n => (n.nameKey, n))).filterMap
              (driftOf (buildDictByName recorded) (buildDictByName st1.nets)),
            is_clean := td.isEmpty } := by
    refine compute_diff_ok_iff.mpr ⟨buildDictByName desired, td, hdictd, htd, ?_⟩
    rw [hfold]
    simp
  -- second apply
  obtain ⟨created2, updated2, st2, hloop2, hinv2, hnorm2, hframe2, hcount2⟩ :=
    applyIdealLoop_spec desired st1 (buildDictByName st1.nets) [] [] []
      hgood hdn hinv1 (by rw [hdicta_eq])
  have hcache1 : buildCache st1.nets = .ok (buildDictByName st1.nets) :=
    buildCache_total hnames1
  have happly2 : applyIdeal st1 desired =
      .ok ({ created := created2, updated := updated2, unchanged := [],
             failures := [], current_state := created2 ++ updated2 ++ [] },
           st2) := by
    rw [applyIdeal]
    simp only [hcache1, Except.bind, bind]
    rw [hloop2]
    simp [pure, Except.pure]
  refine ⟨_, st1, _, _, st2, happly1, rfl, hdiff, rfl, rfl, happly2, rfl, ?_⟩
  -- counts do not change on the second run
  intro k
  by_cases hex : ∃ c ∈ desired, pyEq c.nameKey k = true
  · obtain ⟨c, hc, hck⟩ := hex
    obtain ⟨m, hmmem, hmpy, _⟩ := hnorm1 c hc
    have hmk : pyEq m.nameKey k = true := pyEq_trans hmpy hck
    have hpos : 0 < countByName st1.nets k := by
      rw [countByName]
      exact List.length_pos_of_mem (List.mem_filter.mpr ⟨hmmem, hmk⟩)
    rcases hcount2 k with h' | ⟨h0, _⟩
    · exact h'
    · rw [h0] at hpos
      simp at hpos
  · push_neg at hex
    have hfr := hframe2 k ?_
    · rw [countByName, countByName, hfr]
    · intro c hc
      have := hex c hc
      simpa using this

/-- C4 witness: a single builder-shaped network applied to an empty
controller. -/
theorem c4_amended_idempotent_witness :
    ∃ r1 st1 d r2 st2,
      applyIdeal ⟨[], 0⟩ [c4w_cfg] = .ok (r1, st1) ∧ r1.failures = [] ∧
      compute_diff [c4w_cfg] [] st1.nets = .ok d ∧
      d.to_create = [] ∧ d.to_update = [] ∧
      applyIdeal st1 [c4w_cfg] = .ok (r2, st2) ∧ r2.failures = [] ∧
      (∀ k, countByName st2.nets k = countByName st1.nets k) :=
  c4_amended_idempotent [] 0 [c4w_cfg] []
    (by
      intro c hc
      rw [List.mem_singleton] at hc
      subst hc
      exact ⟨⟨"office", rfl, by decide⟩, ⟨.int 10, rfl, rfl⟩,
        ⟨.str "10.0.0.1/24", rfl, rfl⟩, rfl, rfl, rfl, rfl⟩)
    (by simp)
    (by refine ⟨?_, ?_, ?_, ?_, ?_⟩ <;> simp)

end UnifiIaC
